import Mathlib

/-!
Shallow embedding of the CatalogForge worker pipeline
(`worker/src/pipeline.ts`, with the failure handler from `worker/src/index.ts`).

Conventions of the embedding:
* TypeScript `string | null | undefined` fields become `Option String`;
  JavaScript truthiness on strings (`""` is falsy) is modelled by `truthyStr`.
* JavaScript numbers are modelled as exact rationals (`ℚ`); `Math.round`
  becomes `jsRound` (floor of `x + 1/2`, which is JS round-half-up).
* Network and store effects are replaced by explicit outcome parameters
  (e.g. a list of per-attempt fetch outcomes) and by emitted event lists.
-/

namespace CatalogForge

/-- JS truthiness for an optional string: `null`/`undefined`/`""` are falsy. -/
def truthyStr : Option String → Bool
  | none => false
  | some s => s != ""

/-- `needle` is a prefix of `hay` (over character lists). -/
def isPrefixList : List Char → List Char → Bool
  | [], _ => true
  | _ :: _, [] => false
  | a :: as, b :: bs => a = b && isPrefixList as bs

def containsSubList (hay needle : List Char) : Bool :=
  match hay with
  | [] => needle.isEmpty
  | _ :: rest => isPrefixList needle hay || containsSubList rest needle

/-- Models `String.prototype.includes`. -/
def containsSubstr (s sub : String) : Bool := containsSubList s.data sub.data

/- ### Settings (`ExportSettings` in pipeline.ts) -/

inductive ScopeType | ALL_PRODUCTS | COLLECTIONS | FILTERS | PRODUCTS
deriving DecidableEq, Repr

inductive PricingMode | DEFAULT_VARIANT_PRICE | MIN_MAX_RANGE | VARIANT_TABLE
deriving DecidableEq, Repr

inductive LayoutType | GRID | ONE_PER_PAGE
deriving DecidableEq, Repr

inductive Grouping | NONE | COLLECTION | VENDOR | PRODUCT_TYPE
deriving DecidableEq, Repr

inductive SortOrder | COLLECTION_ORDER | TITLE_ASC | CREATED_DESC | UPDATED_DESC
deriving DecidableEq, Repr

inductive PageSize | A4 | LETTER
deriving DecidableEq, Repr

inductive WatermarkOpacity | LIGHT | MEDIUM | HEAVY
deriving DecidableEq, Repr

structure OverlayRect where
  x : ℚ
  y : ℚ
  width : ℚ
  height : ℚ
deriving DecidableEq, Repr

structure PriceOverlay where
  enabled : Option Bool
  rect : Option OverlayRect
  backgroundColor : Option String
  backgroundOpacity : Option ℚ
  textColor : Option String
  currencyPrefix : Option String
deriving DecidableEq, Repr

structure ExportFilters where
  vendor : Option (List String)
  productType : Option (List String)
  tag : Option (List String)
deriving DecidableEq, Repr

/-- The TS type of `gridColumns` is the literal union `2 | 3 | 4`. -/
inductive GridColumns | two | three | four
deriving DecidableEq, Repr

def GridColumns.toNat : GridColumns → Nat
  | GridColumns.two => 2
  | GridColumns.three => 3
  | GridColumns.four => 4

structure ExportSettings where
  scopeType : Option ScopeType
  includeDrafts : Option Bool
  pricingMode : Option PricingMode
  currencyPrefix : Option String
  layoutType : Option LayoutType
  gridColumns : Option GridColumns
  grouping : Option Grouping
  sortOrder : Option SortOrder
  pageSize : Option PageSize
  watermarkEnabled : Option Bool
  watermarkText : Option String
  watermarkOpacity : Option WatermarkOpacity
  priceOverlay : Option PriceOverlay
  productIds : Option (List String)
  collectionIds : Option (List String)
  filters : Option ExportFilters
deriving DecidableEq, Repr

/- ### Product data (`ProductVariant`, `ProductAccumulator`, `ProductRecord`) -/

structure ProductVariant where
  id : String
  title : String
  price : Option String
deriving DecidableEq, Repr

structure CollectionRef where
  id : String
  title : String
deriving DecidableEq, Repr

structure ProductAccumulator where
  id : String
  title : Option String
  handle : Option String
  vendor : Option String
  productType : Option String
  status : Option String
  featuredImageUrl : Option String
  createdAt : Option String
  updatedAt : Option String
  collections : List CollectionRef
  imageUrls : List String
  variants : List ProductVariant
deriving DecidableEq, Repr

/-- The tagged price union of `ProductRecord["price"]`:
scalar string, `{min,max}` range, or `{variants:[{title,price}]}` table. -/
inductive Price
  | scalar (value : String)
  | range (min max : String)
  | table (variants : List (String × Option String))
deriving DecidableEq, Repr

structure ProductRecord where
  productId : String
  title : Option String
  handle : Option String
  vendor : Option String
  productType : Option String
  status : Option String
  coverUrl : Option String
  createdAt : Option String
  updatedAt : Option String
  collections : List CollectionRef
  localCoverPath : Option String
  coverFileName : Option String
  price : Option Price
deriving DecidableEq, Repr

/- ### `formatPrice` -/

/-- `formatPrice` from pipeline.ts.  `!price` in JS is true for `null` and for
the empty scalar string, so those map to `none`; a variant table formats its
first variant's price when that price is truthy. -/
def formatPrice (price : Option Price) (currencyPrefix : Option String) :
    Option String :=
  match price with
  | none => none
  | some (Price.scalar v) =>
      if v = "" then none
      else some ((currencyPrefix.getD "$") ++ v)
  | some (Price.range mn mx) =>
      some ((currencyPrefix.getD "$") ++ mn ++ " - " ++ (currencyPrefix.getD "$") ++ mx)
  | some (Price.table variants) =>
      match variants.head? with
      | some (_, some p) =>
          if p = "" then none else some ((currencyPrefix.getD "$") ++ p)
      | _ => none

/- ### Cover download (`downloadWithRetry`, body of `downloadCovers` workers) -/

/-- Outcome of one `fetch` of a cover URL: a thrown network error, a non-ok
response, or an ok response carrying a content type and bytes. -/
inductive FetchOutcome
  | err
  | notOk
  | ok (contentType : String) (bytes : List Nat)
deriving DecidableEq, Repr

structure DownloadResult where
  bytes : List Nat
  extension : Option String
deriving DecidableEq, Repr

/-- Extension derived from the response content type in `downloadWithRetry`. -/
def contentTypeExtension (contentType : String) : Option String :=
  if containsSubstr contentType "png" then some "png"
  else if containsSubstr contentType "jpeg" then some "jpg"
  else none

/-- `downloadWithRetry(url, attempts)`: the fetch environment is the list of
per-attempt outcomes.  A non-ok response consumes an attempt and continues; a
thrown error on the last attempt returns null; success returns the bytes. -/
def downloadWithRetry : List FetchOutcome → Nat → Option DownloadResult
  | _, 0 => none
  | [], _ + 1 => none
  | FetchOutcome.ok ct bytes :: _, _ + 1 => some ⟨bytes, contentTypeExtension ct⟩
  | FetchOutcome.notOk :: rest, n + 1 => downloadWithRetry rest n
  | FetchOutcome.err :: rest, n + 1 =>
      if n = 0 then none else downloadWithRetry rest n

inductive IssueType | MISSING_COVER | IMAGE_DOWNLOAD_FAILED
deriving DecidableEq, Repr

structure JobIssue where
  type : IssueType
  productId : String
  productHandle : Option String
deriving DecidableEq, Repr

structure Counts where
  productsTotal : Nat
  productsProcessed : Nat
  imagesDownloaded : Nat
  imagesFailed : Nat
deriving DecidableEq, Repr

structure CountsDelta where
  productsProcessed : Nat
  imagesDownloaded : Nat
  imagesFailed : Nat
deriving DecidableEq, Repr

/-- `incrementCounts`: read the stored counts, add the delta per field. -/
def incrementCounts (counts : Counts) (delta : CountsDelta) : Counts :=
  ⟨counts.productsTotal,
   counts.productsProcessed + delta.productsProcessed,
   counts.imagesDownloaded + delta.imagesDownloaded,
   counts.imagesFailed + delta.imagesFailed⟩

structure ProcessedRecord where
  record : ProductRecord
  issues : List JobIssue
  delta : CountsDelta
  failed : Bool
deriving DecidableEq, Repr

/-- The per-record body of a `downloadCovers` worker: missing cover URL records
a MISSING_COVER issue; otherwise the cover is fetched with 3 attempts, a final
failure records one IMAGE_DOWNLOAD_FAILED issue, and success stores the bytes
and stamps the record's local path and archive file name. -/
def processCoverRecord (jobId : String) (record : ProductRecord)
    (outcomes : List FetchOutcome) : ProcessedRecord :=
  if truthyStr record.coverUrl then
    match downloadWithRetry outcomes 3 with
    | none =>
        ⟨record, [⟨IssueType.IMAGE_DOWNLOAD_FAILED, record.productId, record.handle⟩],
         ⟨1, 0, 1⟩, true⟩
    | some result =>
        let extension := result.extension.getD "jpg"
        let safeHandle := record.handle.getD record.productId
        let relativePath :=
          "jobs/" ++ jobId ++ "/images/products/" ++ safeHandle ++ "/cover." ++ extension
        ⟨{ record with
            localCoverPath := some relativePath,
            coverFileName := some ("images/" ++ safeHandle ++ "." ++ extension) },
         [], ⟨1, 1, 0⟩, false⟩
  else
    ⟨record, [⟨IssueType.MISSING_COVER, record.productId, record.handle⟩],
     ⟨1, 0, 1⟩, true⟩

/- ### Overlay rectangle resolution (`clamp01`, `resolveOverlayStyle`) -/

/-- `clamp01` from pipeline.ts (the NaN branch cannot arise over `ℚ`). -/
def clamp01 (value : ℚ) : ℚ := min (max value 0) 1

/-- JS `Math.round`: round half up. -/
def jsRound (q : ℚ) : ℤ := ⌊q + 1/2⌋

structure ResolvedOverlay where
  x : ℤ
  y : ℤ
  width : ℤ
  height : ℤ
  backgroundColor : String
  backgroundOpacity : ℚ
  textColor : String
deriving DecidableEq, Repr

/-- `resolveOverlayStyle` from pipeline.ts: ratios are clamped to `[0,1]`,
scaled by the image dimensions, rounded, and the position is clamped into
`[0, dimension - extent]`. -/
def resolveOverlayStyle (overlay : Option PriceOverlay)
    (imageWidth imageHeight : ℕ) : ResolvedOverlay :=
  let rect := overlay.bind PriceOverlay.rect
  let widthRatio := clamp01 ((rect.map OverlayRect.width).getD (88/100))
  let heightRatio := clamp01 ((rect.map OverlayRect.height).getD (2/10))
  let xRatio := clamp01 ((rect.map OverlayRect.x).getD (6/100))
  let yRatio := clamp01 ((rect.map OverlayRect.y).getD (74/100))
  let width := jsRound ((imageWidth : ℚ) * widthRatio)
  let height := jsRound ((imageHeight : ℚ) * heightRatio)
  let x := jsRound (min (max 0 ((imageWidth : ℚ) * xRatio)) ((imageWidth : ℚ) - (width : ℚ)))
  let y := jsRound (min (max 0 ((imageHeight : ℚ) * yRatio)) ((imageHeight : ℚ) - (height : ℚ)))
  ⟨x, y, width, height,
   (overlay.bind PriceOverlay.backgroundColor).getD "#000000",
   clamp01 ((overlay.bind PriceOverlay.backgroundOpacity).getD (55/100)),
   (overlay.bind PriceOverlay.textColor).getD "#ffffff"⟩

/- ### Helper lemmas -/

theorem clamp01_nonneg (v : ℚ) : 0 ≤ clamp01 v := by
  unfold clamp01
  exact le_min (le_max_right v 0) zero_le_one

theorem clamp01_le_one (v : ℚ) : clamp01 v ≤ 1 := min_le_right _ _

theorem jsRound_nonneg {t : ℚ} (h : 0 ≤ t) : 0 ≤ jsRound t := by
  unfold jsRound
  have : (0 : ℚ) ≤ t + 1/2 := by linarith
  exact Int.floor_nonneg.mpr this

theorem jsRound_le {t : ℚ} {B : ℤ} (h : t ≤ (B : ℚ)) : jsRound t ≤ B := by
  unfold jsRound
  have h2 : t + 1/2 < ((B + 1 : ℤ) : ℚ) := by push_cast; linarith
  exact Int.lt_add_one_iff.mp (Int.floor_lt.mpr h2)

/-- Rounding a dimension scaled by a ratio in `[0,1]` lands in `[0, dimension]`. -/
theorem jsRound_scale_mem (W : ℕ) (r : ℚ) (h0 : 0 ≤ r) (h1 : r ≤ 1) :
    0 ≤ jsRound ((W : ℚ) * r) ∧ jsRound ((W : ℚ) * r) ≤ (W : ℤ) := by
  have hW : (0 : ℚ) ≤ (W : ℚ) := by positivity
  refine ⟨jsRound_nonneg (mul_nonneg hW h0), jsRound_le ?_⟩
  calc (W : ℚ) * r ≤ (W : ℚ) * 1 := by
        exact mul_le_mul_of_nonneg_left h1 hW
    _ = ((W : ℤ) : ℚ) := by push_cast; ring

/-- Clamping a nonnegative position into `[0, W - extent]` and rounding keeps
`position + extent` within `[0, W]`. -/
theorem position_clamp_mem (W : ℕ) (ext : ℤ) (t : ℚ)
    (hextW : ext ≤ (W : ℤ)) :
    0 ≤ jsRound (min (max 0 t) ((W : ℚ) - (ext : ℚ))) ∧
    jsRound (min (max 0 t) ((W : ℚ) - (ext : ℚ))) + ext ≤ (W : ℤ) := by
  have hsub : (0 : ℚ) ≤ (W : ℚ) - (ext : ℚ) := by
    have : ((ext : ℚ)) ≤ ((W : ℤ) : ℚ) := by exact_mod_cast hextW
    push_cast at this ⊢
    linarith
  have harg0 : 0 ≤ min (max 0 t) ((W : ℚ) - (ext : ℚ)) :=
    le_min (le_max_left 0 t) hsub
  have hargB : min (max 0 t) ((W : ℚ) - (ext : ℚ)) ≤ (((W : ℤ) - ext : ℤ) : ℚ) := by
    have := min_le_right (max 0 t) ((W : ℚ) - (ext : ℚ))
    push_cast
    linarith
  have h1 := jsRound_nonneg harg0
  have h2 := jsRound_le hargB
  exact ⟨h1, by omega⟩

/-- C4: for every overlay configuration (any rational ratios, including
negative values and values greater than 1) and every image with positive
integer dimensions, `resolveOverlayStyle` returns a pixel rectangle with
`x ≥ 0`, `y ≥ 0`, `x + width ≤ imageWidth`, and `y + height ≤ imageHeight`. -/
theorem resolveOverlayStyle_in_bounds (overlay : Option PriceOverlay)
    (imageWidth imageHeight : ℕ) (hW : 0 < imageWidth) (hH : 0 < imageHeight) :
    0 ≤ (resolveOverlayStyle overlay imageWidth imageHeight).x ∧
    0 ≤ (resolveOverlayStyle overlay imageWidth imageHeight).y ∧
    (resolveOverlayStyle overlay imageWidth imageHeight).x
      + (resolveOverlayStyle overlay imageWidth imageHeight).width ≤ (imageWidth : ℤ) ∧
    (resolveOverlayStyle overlay imageWidth imageHeight).y
      + (resolveOverlayStyle overlay imageWidth imageHeight).height ≤ (imageHeight : ℤ) := by
  unfold resolveOverlayStyle
  dsimp only
  have hwmem := jsRound_scale_mem imageWidth
    (clamp01 (((overlay.bind PriceOverlay.rect).map OverlayRect.width).getD (88/100)))
    (clamp01_nonneg _) (clamp01_le_one _)
  have hhmem := jsRound_scale_mem imageHeight
    (clamp01 (((overlay.bind PriceOverlay.rect).map OverlayRect.height).getD (2/10)))
    (clamp01_nonneg _) (clamp01_le_one _)
  have hxmem := position_clamp_mem imageWidth _
    ((imageWidth : ℚ) * clamp01 (((overlay.bind PriceOverlay.rect).map OverlayRect.x).getD (6/100)))
    hwmem.2
  have hymem := position_clamp_mem imageHeight _
    ((imageHeight : ℚ) * clamp01 (((overlay.bind PriceOverlay.rect).map OverlayRect.y).getD (74/100)))
    hhmem.2
  exact ⟨hxmem.1, hymem.1, hxmem.2, hymem.2⟩

/-- Witness for C4 at a concrete out-of-range rect and a 100×80 image. -/
theorem resolveOverlayStyle_in_bounds_witness :
    0 < 100 ∧ 0 < 80 ∧
    (0 ≤ (resolveOverlayStyle
        (some ⟨some true, some ⟨-2, 3/2, 5, -1⟩, none, none, none, none⟩) 100 80).x ∧
     0 ≤ (resolveOverlayStyle
        (some ⟨some true, some ⟨-2, 3/2, 5, -1⟩, none, none, none, none⟩) 100 80).y ∧
     (resolveOverlayStyle
        (some ⟨some true, some ⟨-2, 3/2, 5, -1⟩, none, none, none, none⟩) 100 80).x
       + (resolveOverlayStyle
        (some ⟨some true, some ⟨-2, 3/2, 5, -1⟩, none, none, none, none⟩) 100 80).width ≤ (100 : ℤ) ∧
     (resolveOverlayStyle
        (some ⟨some true, some ⟨-2, 3/2, 5, -1⟩, none, none, none, none⟩) 100 80).y
       + (resolveOverlayStyle
        (some ⟨some true, some ⟨-2, 3/2, 5, -1⟩, none, none, none, none⟩) 100 80).height ≤ (80 : ℤ)) :=
  ⟨by decide, by decide,
   resolveOverlayStyle_in_bounds
     (some ⟨some true, some ⟨-2, 3/2, 5, -1⟩, none, none, none, none⟩) 100 80
     (by decide) (by decide)⟩

/-- C5: `formatPrice` maps a scalar `"19.99"` with prefix `"$"` to `"$19.99"`,
a `{min:"10",max:"25"}` range to `"$10 - $25"`, a variant table whose first
variant price is `"5.00"` to `"$5.00"` regardless of the remaining variants,
and a null price to null. -/
theorem formatPrice_spec_cases :
    formatPrice (some (Price.scalar "19.99")) (some "$") = some "$19.99" ∧
    formatPrice (some (Price.range "10" "25")) (some "$") = some "$10 - $25" ∧
    (∀ rest : List (String × Option String),
      formatPrice (some (Price.table (("Small", some "5.00") :: rest))) (some "$")
        = some "$5.00") ∧
    formatPrice none (some "$") = none :=
  ⟨rfl, rfl, fun _ => rfl, rfl⟩

/-- C3: for a record with a cover URL, two failed fetch attempts followed by a
successful third record no issue and add one to `imagesDownloaded` and
`productsProcessed`; three failed attempts record exactly one
IMAGE_DOWNLOAD_FAILED issue and add one to `imagesFailed` and
`productsProcessed`. -/
theorem downloadCovers_retry_spec (jobId : String) (record : ProductRecord)
    (counts : Counts) (hurl : truthyStr record.coverUrl = true) :
    (∀ o1 o2 ct bytes,
      (o1 = FetchOutcome.err ∨ o1 = FetchOutcome.notOk) →
      (o2 = FetchOutcome.err ∨ o2 = FetchOutcome.notOk) →
      (processCoverRecord jobId record [o1, o2, FetchOutcome.ok ct bytes]).issues = [] ∧
      incrementCounts counts
          (processCoverRecord jobId record [o1, o2, FetchOutcome.ok ct bytes]).delta =
        ⟨counts.productsTotal, counts.productsProcessed + 1,
         counts.imagesDownloaded + 1, counts.imagesFailed⟩) ∧
    (∀ o1 o2 o3,
      (o1 = FetchOutcome.err ∨ o1 = FetchOutcome.notOk) →
      (o2 = FetchOutcome.err ∨ o2 = FetchOutcome.notOk) →
      (o3 = FetchOutcome.err ∨ o3 = FetchOutcome.notOk) →
      (processCoverRecord jobId record [o1, o2, o3]).issues =
        [⟨IssueType.IMAGE_DOWNLOAD_FAILED, record.productId, record.handle⟩] ∧
      incrementCounts counts (processCoverRecord jobId record [o1, o2, o3]).delta =
        ⟨counts.productsTotal, counts.productsProcessed + 1,
         counts.imagesDownloaded, counts.imagesFailed + 1⟩) := by
  constructor
  · rintro o1 o2 ct bytes (rfl | rfl) (rfl | rfl) <;>
      simp [processCoverRecord, hurl, downloadWithRetry, incrementCounts]
  · rintro o1 o2 o3 (rfl | rfl) (rfl | rfl) (rfl | rfl) <;>
      simp [processCoverRecord, hurl, downloadWithRetry, incrementCounts]

/-- Witness for C3 on a concrete record, counts, and attempt outcomes. -/
theorem downloadCovers_retry_spec_witness :
    truthyStr (ProductRecord.mk "gid-p1" none (some "tee") none none none
        (some "https://cdn/img.jpg") none none [] none none none).coverUrl = true ∧
    ((processCoverRecord "job1"
        (ProductRecord.mk "gid-p1" none (some "tee") none none none
          (some "https://cdn/img.jpg") none none [] none none none)
        [FetchOutcome.err, FetchOutcome.notOk,
         FetchOutcome.ok "image/jpeg" [1, 2]]).issues = [] ∧
     incrementCounts ⟨7, 2, 1, 1⟩
        (processCoverRecord "job1"
          (ProductRecord.mk "gid-p1" none (some "tee") none none none
            (some "https://cdn/img.jpg") none none [] none none none)
          [FetchOutcome.err, FetchOutcome.notOk,
           FetchOutcome.ok "image/jpeg" [1, 2]]).delta = ⟨7, 3, 2, 1⟩) :=
  ⟨by decide,
   ((downloadCovers_retry_spec "job1"
      (ProductRecord.mk "gid-p1" none (some "tee") none none none
        (some "https://cdn/img.jpg") none none [] none none none)
      ⟨7, 2, 1, 1⟩ (by decide)).1
     FetchOutcome.err FetchOutcome.notOk "image/jpeg" [1, 2]
     (Or.inl rfl) (Or.inr rfl))⟩

/- ### Grouping (`buildGroupedItems`, `selectCollectionTitle`) -/

inductive GroupedItem
  | header (title : String)
  | product (record : ProductRecord)
deriving DecidableEq, Repr

/-- `selectCollectionTitle`: prefer a collection matching one of the selected
collection ids, else the record's first collection, else null. -/
def selectCollectionTitle (record : ProductRecord) (settings : ExportSettings) :
    Option String :=
  if record.collections.isEmpty then none
  else
    match settings.collectionIds with
    | some ids =>
        if ids.isEmpty then record.collections.head?.map CollectionRef.title
        else
          match record.collections.find? (fun c => ids.contains c.id) with
          | some m => some m.title
          | none => record.collections.head?.map CollectionRef.title
    | none => record.collections.head?.map CollectionRef.title

/-- Insertion-ordered bucket update, modelling the JS `Map` in
`buildGroupedItems`: an existing key keeps its position, a new key is
appended. -/
def groupInsert (m : List (String × List ProductRecord)) (k : String)
    (r : ProductRecord) : List (String × List ProductRecord) :=
  if m.any (fun p => p.1 == k) then
    m.map (fun p => if p.1 == k then (p.1, p.2 ++ [r]) else p)
  else m ++ [(k, [r])]

/-- `buildGroupedItems`: grouping NONE yields a headerless product list; any
other grouping buckets the records (first-encountered bucket order) and emits
a header before each bucket's products. -/
def buildGroupedItems (records : List ProductRecord) (settings : ExportSettings) :
    List GroupedItem :=
  match settings.grouping.getD Grouping.NONE with
  | Grouping.NONE => records.map GroupedItem.product
  | g =>
      let key : ProductRecord → String := fun record =>
        match g with
        | Grouping.VENDOR => record.vendor.getD "Unassigned"
        | Grouping.PRODUCT_TYPE => record.productType.getD "Unassigned"
        | _ => (selectCollectionTitle record settings).getD "Unassigned"
      let grouped := records.foldl (fun m r => groupInsert m (key r) r) []
      grouped.flatMap (fun s => GroupedItem.header s.1 :: s.2.map GroupedItem.product)

/- ### PDF layout (`buildPdf`, `drawWatermark`) -/

structure WatermarkConfig where
  text : String
  opacity : ℚ
deriving DecidableEq, Repr

/-- The watermark value `buildPdf` computes from the settings: `null` when
disabled, otherwise the configured text (default `""`) and the opacity tier
mapped HEAVY↦0.35, MEDIUM↦0.2, otherwise 0.12. -/
def buildWatermarkConfig (settings : ExportSettings) : Option WatermarkConfig :=
  if settings.watermarkEnabled.getD false then
    some ⟨settings.watermarkText.getD "",
      match settings.watermarkOpacity with
      | some WatermarkOpacity.HEAVY => 35/100
      | some WatermarkOpacity.MEDIUM => 2/10
      | _ => 12/100⟩
  else none

/-- `drawWatermark` draws nothing when the watermark is null or its text is
empty; the result is the watermark text operation placed on a page, if any. -/
def drawWatermark (watermark : Option WatermarkConfig) : Option WatermarkConfig :=
  match watermark with
  | none => none
  | some w => if w.text = "" then none else some w

/-- What `buildPdf` draws on one page: a group header, a single
ONE_PER_PAGE product, or a list of GRID product cells. -/
inductive PageContent
  | header (title : String)
  | single (record : ProductRecord)
  | grid (cells : List ProductRecord)
deriving DecidableEq, Repr

structure Page where
  watermark : Option WatermarkConfig
  content : PageContent
deriving DecidableEq, Repr

/-- Inner column loop of the GRID layout: consumes up to `cols` leading
product items, stopping at a header or the end of the item list. -/
def fillCols : Nat → List GroupedItem → List ProductRecord × List GroupedItem
  | 0, items => ([], items)
  | _ + 1, [] => ([], [])
  | _ + 1, GroupedItem.header t :: rest => ([], GroupedItem.header t :: rest)
  | c + 1, GroupedItem.product r :: rest =>
      let step := fillCols c rest
      (r :: step.1, step.2)

/-- Outer row loop of the GRID layout: `rows` passes of the column loop over
the shared item cursor (after a header stops the column loop, the remaining
row passes consume nothing, exactly as in the source). -/
def fillRows (cols : Nat) : Nat → List GroupedItem → List ProductRecord × List GroupedItem
  | 0, items => ([], items)
  | n + 1, items =>
      let step := fillCols cols items
      let rest := fillRows cols n step.2
      (step.1 ++ rest.1, rest.2)

/-- The GRID page loop of `buildPdf`, with fuel standing for the manifestly
terminating `while` loop (each iteration consumes at least one item when
`cols ≥ 1`; `buildPdfPages` supplies `items.length` as fuel). -/
def gridPagesAux (watermark : Option WatermarkConfig) (cols : Nat) :
    Nat → List GroupedItem → List Page
  | 0, _ => []
  | _ + 1, [] => []
  | fuel + 1, GroupedItem.header t :: rest =>
      ⟨drawWatermark watermark, PageContent.header t⟩ ::
        gridPagesAux watermark cols fuel rest
  | fuel + 1, GroupedItem.product r :: rest =>
      let step := fillRows cols 3 (GroupedItem.product r :: rest)
      ⟨drawWatermark watermark, PageContent.grid step.1⟩ ::
        gridPagesAux watermark cols fuel step.2

/-- The page a ONE_PER_PAGE iteration adds for one grouped item. -/
def onePerPageLayout (watermark : Option WatermarkConfig) (item : GroupedItem) : Page :=
  match item with
  | GroupedItem.header t => ⟨drawWatermark watermark, PageContent.header t⟩
  | GroupedItem.product r => ⟨drawWatermark watermark, PageContent.single r⟩

/-- The page sequence `buildPdf` renders for a grouped item sequence:
ONE_PER_PAGE adds one page per item; GRID runs the row/column loops with
3 rows and `gridColumns ?? 3` columns. -/
def buildPdfPages (settings : ExportSettings) (groupedItems : List GroupedItem) :
    List Page :=
  let columns := (settings.gridColumns.map GridColumns.toNat).getD 3
  let watermark := buildWatermarkConfig settings
  match settings.layoutType.getD LayoutType.GRID with
  | LayoutType.ONE_PER_PAGE => groupedItems.map (onePerPageLayout watermark)
  | LayoutType.GRID => gridPagesAux watermark columns groupedItems.length groupedItems

/- ### Section normal form and page-count spec for C2 -/

/-- Ceiling division on naturals: `ceilDiv a b = ⌈a / b⌉` for `b ≥ 1`. -/
def ceilDiv (a b : Nat) : Nat := (a + b - 1) / b

/-- A grouped item sequence in section normal form: a run of products before
the first header, then sections, each a header followed by its products.
Every grouped item sequence arises this way. -/
def flattenGrouped (leading : List ProductRecord)
    (sections : List (String × List ProductRecord)) : List GroupedItem :=
  leading.map GroupedItem.product ++
    sections.flatMap (fun s => GroupedItem.header s.1 :: s.2.map GroupedItem.product)

/-- The expected GRID pages of one maximal product run: chunks of `size`
cells. -/
def chunkPagesAux (watermark : Option WatermarkConfig) (size : Nat) :
    Nat → List ProductRecord → List Page
  | 0, _ => []
  | _ + 1, [] => []
  | fuel + 1, p :: ps =>
      ⟨drawWatermark watermark, PageContent.grid ((p :: ps).take size)⟩ ::
        chunkPagesAux watermark size fuel ((p :: ps).drop size)

def chunkPages (watermark : Option WatermarkConfig) (size : Nat)
    (ps : List ProductRecord) : List Page :=
  chunkPagesAux watermark size ps.length ps

/-- A grouped item list that does not start with a product cell: empty or
header-first.  The tail after a maximal product run has this shape. -/
def headedTail : List GroupedItem → Prop
  | [] => True
  | GroupedItem.header _ :: _ => True
  | GroupedItem.product _ :: _ => False

theorem headedTail_flatMap (sections : List (String × List ProductRecord)) :
    headedTail (sections.flatMap (fun s =>
      GroupedItem.header s.1 :: s.2.map GroupedItem.product)) := by
  cases sections with
  | nil => simp [headedTail]
  | cons s rest => simp [headedTail]

theorem take_add_split {α : Type} (l : List α) (m n : Nat) :
    l.take (m + n) = l.take m ++ (l.drop m).take n := by
  induction m generalizing l with
  | zero => simp
  | succ m ih =>
      cases l with
      | nil => simp
      | cons a l' => simp [Nat.succ_add, ih l']

theorem fillCols_products (c : Nat) (ps : List ProductRecord)
    (tail : List GroupedItem) (htail : headedTail tail) :
    fillCols c (ps.map GroupedItem.product ++ tail) =
      (ps.take c, (ps.drop c).map GroupedItem.product ++ tail) := by
  induction c generalizing ps with
  | zero => simp [fillCols]
  | succ c ih =>
      cases ps with
      | nil =>
          cases tail with
          | nil => simp [fillCols]
          | cons hd rest =>
              cases hd with
              | header t => simp [fillCols]
              | product r => exact absurd htail (by simp [headedTail])
      | cons p ps' => simp [fillCols, ih ps']

theorem fillRows_products (cols rows : Nat) (ps : List ProductRecord)
    (tail : List GroupedItem) (htail : headedTail tail) :
    fillRows cols rows (ps.map GroupedItem.product ++ tail) =
      (ps.take (rows * cols), (ps.drop (rows * cols)).map GroupedItem.product ++ tail) := by
  induction rows generalizing ps with
  | zero => simp [fillRows]
  | succ n ih =>
      rw [fillRows, fillCols_products cols ps tail htail]
      dsimp only
      rw [ih (ps.drop cols)]
      rw [List.drop_drop, ← take_add_split]
      simp only [show cols + n * cols = (n + 1) * cols from by ring,
        show n * cols + cols = (n + 1) * cols from by ring]

theorem chunkPagesAux_fuel (wm : Option WatermarkConfig) (size : Nat)
    (hk : 1 ≤ size) :
    ∀ fuel fuel2 (ps : List ProductRecord), ps.length ≤ fuel → ps.length ≤ fuel2 →
      chunkPagesAux wm size fuel ps = chunkPagesAux wm size fuel2 ps := by
  intro fuel
  induction fuel with
  | zero =>
      intro fuel2 ps h1 _
      have hps : ps = [] := List.length_eq_zero.mp (Nat.le_zero.mp h1)
      subst hps
      cases fuel2 <;> simp [chunkPagesAux]
  | succ f ih =>
      intro fuel2 ps h1 h2
      cases ps with
      | nil => cases fuel2 <;> simp [chunkPagesAux]
      | cons p ps' =>
          cases fuel2 with
          | zero => simp at h2
          | succ f2 =>
              simp only [chunkPagesAux]
              congr 1
              apply ih
              · simp only [List.length_drop, List.length_cons] at *
                omega
              · simp only [List.length_drop, List.length_cons] at *
                omega

theorem chunkPages_cons (wm : Option WatermarkConfig) (size : Nat)
    (hk : 1 ≤ size) (p : ProductRecord) (ps : List ProductRecord) :
    chunkPages wm size (p :: ps) =
      ⟨drawWatermark wm, PageContent.grid ((p :: ps).take size)⟩ ::
        chunkPages wm size ((p :: ps).drop size) := by
  unfold chunkPages
  simp only [List.length_cons, chunkPagesAux]
  congr 1
  apply chunkPagesAux_fuel wm size hk
  · simp only [List.length_drop, List.length_cons]
    omega
  · exact Nat.le_refl _

theorem gridPagesAux_flatten (wm : Option WatermarkConfig) (cols : Nat)
    (hcols : 1 ≤ cols) :
    ∀ (fuel : Nat) (leading : List ProductRecord)
      (sections : List (String × List ProductRecord)),
      (flattenGrouped leading sections).length ≤ fuel →
      gridPagesAux wm cols fuel (flattenGrouped leading sections) =
        chunkPages wm (3 * cols) leading ++
          sections.flatMap (fun s =>
            Page.mk (drawWatermark wm) (PageContent.header s.1) ::
              chunkPages wm (3 * cols) s.2) := by
  intro fuel
  induction fuel with
  | zero =>
      intro leading sections h
      have hflat : flattenGrouped leading sections = [] :=
        List.length_eq_zero.mp (Nat.le_zero.mp h)
      have hlead : leading = [] := by
        cases leading with
        | nil => rfl
        | cons p ps => simp [flattenGrouped] at hflat
      have hsec : sections = [] := by
        cases sections with
        | nil => rfl
        | cons s rest =>
            subst hlead
            simp [flattenGrouped] at hflat
      subst hlead; subst hsec
      simp [flattenGrouped, gridPagesAux, chunkPages, chunkPagesAux]
  | succ f ih =>
      intro leading sections h
      cases leading with
      | nil =>
          cases sections with
          | nil => simp [flattenGrouped, gridPagesAux, chunkPages, chunkPagesAux]
          | cons s rest =>
              have hflat : flattenGrouped [] (s :: rest) =
                  GroupedItem.header s.1 :: flattenGrouped s.2 rest := by
                simp [flattenGrouped]
              rw [hflat]
              rw [show gridPagesAux wm cols (f + 1)
                    (GroupedItem.header s.1 :: flattenGrouped s.2 rest) =
                  Page.mk (drawWatermark wm) (PageContent.header s.1) ::
                    gridPagesAux wm cols f (flattenGrouped s.2 rest) from rfl]
              rw [ih s.2 rest (by
                have := h
                rw [hflat] at this
                simpa using Nat.lt_succ_iff.mp (Nat.lt_of_lt_of_le (Nat.lt_succ_self _) this))]
              simp [chunkPages, chunkPagesAux]
      | cons p ps =>
          have h3 : 1 ≤ 3 * cols := by omega
          have htail := headedTail_flatMap sections
          have hflat : flattenGrouped (p :: ps) sections =
              GroupedItem.product p :: (ps.map GroupedItem.product ++
                sections.flatMap (fun s =>
                  GroupedItem.header s.1 :: s.2.map GroupedItem.product)) := by
            simp [flattenGrouped]
          have hfill := fillRows_products cols 3 (p :: ps)
            (sections.flatMap (fun s =>
              GroupedItem.header s.1 :: s.2.map GroupedItem.product)) htail
          rw [hflat]
          rw [show gridPagesAux wm cols (f + 1)
                (GroupedItem.product p :: (ps.map GroupedItem.product ++
                  sections.flatMap (fun s =>
                    GroupedItem.header s.1 :: s.2.map GroupedItem.product))) =
              Page.mk (drawWatermark wm) (PageContent.grid
                (fillRows cols 3 (GroupedItem.product p :: (ps.map GroupedItem.product ++
                  sections.flatMap (fun s =>
                    GroupedItem.header s.1 :: s.2.map GroupedItem.product)))).1) ::
                gridPagesAux wm cols f
                  (fillRows cols 3 (GroupedItem.product p :: (ps.map GroupedItem.product ++
                    sections.flatMap (fun s =>
                      GroupedItem.header s.1 :: s.2.map GroupedItem.product)))).2 from rfl]
          have hcons : GroupedItem.product p :: (ps.map GroupedItem.product ++
              sections.flatMap (fun s =>
                GroupedItem.header s.1 :: s.2.map GroupedItem.product)) =
              (p :: ps).map GroupedItem.product ++
                sections.flatMap (fun s =>
                  GroupedItem.header s.1 :: s.2.map GroupedItem.product) := by
            simp
          rw [hcons, hfill]
          dsimp only
          have hrest : ((p :: ps).drop (3 * cols)).map GroupedItem.product ++
              sections.flatMap (fun s =>
                GroupedItem.header s.1 :: s.2.map GroupedItem.product) =
              flattenGrouped ((p :: ps).drop (3 * cols)) sections := rfl
          rw [hrest]
          rw [ih ((p :: ps).drop (3 * cols)) sections (by
            have hlen : (flattenGrouped ((p :: ps).drop (3 * cols)) sections).length ≤
                (flattenGrouped (p :: ps) sections).length - 1 := by
              simp only [flattenGrouped, List.length_append, List.length_map,
                List.length_drop, List.length_cons]
              omega
            have hle := h
            rw [hflat] at hle
            simp only [List.length_cons] at hle
            have : (flattenGrouped (p :: ps) sections).length =
                (ps.map GroupedItem.product ++
                  sections.flatMap (fun s =>
                    GroupedItem.header s.1 :: s.2.map GroupedItem.product)).length + 1 := by
              rw [hflat]; simp
            omega)]
          rw [chunkPages_cons wm (3 * cols) h3 p ps]
          simp

/-- Number of chunk pages for a run of `n` products is `⌈n / size⌉`. -/
theorem chunkPagesAux_length (wm : Option WatermarkConfig) (size : Nat)
    (hk : 1 ≤ size) :
    ∀ (fuel : Nat) (ps : List ProductRecord), ps.length ≤ fuel →
      (chunkPagesAux wm size fuel ps).length = ceilDiv ps.length size := by
  intro fuel
  induction fuel with
  | zero =>
      intro ps h
      have hps : ps = [] := List.length_eq_zero.mp (Nat.le_zero.mp h)
      subst hps
      simp only [chunkPagesAux, List.length_nil]
      unfold ceilDiv
      rw [Nat.zero_add, Nat.div_eq_of_lt (by omega)]
  | succ f ih =>
      intro ps h
      cases ps with
      | nil =>
          simp only [chunkPagesAux, List.length_nil]
          unfold ceilDiv
          rw [Nat.zero_add, Nat.div_eq_of_lt (by omega)]
      | cons p ps' =>
          simp only [chunkPagesAux, List.length_cons]
          rw [ih ((p :: ps').drop size) (by
            simp only [List.length_drop, List.length_cons] at *
            omega)]
          simp only [List.length_drop, List.length_cons]
          unfold ceilDiv
          rcases Nat.le_total (ps'.length + 1) size with hle | hge
          · have hz : ps'.length + 1 - size = 0 := by omega
            rw [hz]
            rw [Nat.zero_add, Nat.div_eq_of_lt (by omega)]
            have : ps'.length + 1 + size - 1 = (ps'.length) + size := by omega
            rw [this, Nat.add_div_right _ (by omega)]
            rw [Nat.div_eq_of_lt (by omega)]
          · have h1 : ps'.length + 1 - size + size - 1 + size = ps'.length + 1 + size - 1 := by
              omega
            rw [← h1, Nat.add_div_right _ (by omega)]

theorem chunkPages_length (wm : Option WatermarkConfig) (size : Nat)
    (hk : 1 ≤ size) (ps : List ProductRecord) :
    (chunkPages wm size ps).length = ceilDiv ps.length size :=
  chunkPagesAux_length wm size hk ps.length ps (Nat.le_refl _)

theorem gridColumnsNat_pos (settings : ExportSettings) :
    1 ≤ (settings.gridColumns.map GridColumns.toNat).getD 3 := by
  cases settings.gridColumns with
  | none => simp
  | some c => cases c <;> simp [GridColumns.toNat]

/-- A minimal concrete product record used by witnesses. -/
def trivialRecord : ProductRecord :=
  ⟨"p", none, none, none, none, none, none, none, none, [], none, none, none⟩

theorem flatMap_pages_length (wm : Option WatermarkConfig) (size : Nat)
    (hk : 1 ≤ size) (sections : List (String × List ProductRecord)) :
    (sections.flatMap (fun s =>
        Page.mk (drawWatermark wm) (PageContent.header s.1) ::
          chunkPages wm size s.2)).length
      = (sections.map (fun s => 1 + ceilDiv s.2.length size)).sum := by
  induction sections with
  | nil => simp
  | cons s rest ih =>
      simp [ih, chunkPages_length wm size hk]
      ring

/-- C2: with ONE_PER_PAGE, `buildPdf` adds exactly one page per grouped item
(a header page per header, a single-product page per product); with GRID and
`c` columns, each header gets exactly one page containing no product cells,
and each maximal run of `n` consecutive products between headers is laid out
on exactly `⌈n / (3c)⌉` pages of grid cells. -/
theorem buildPdf_page_structure (settings : ExportSettings)
    (leading : List ProductRecord)
    (sections : List (String × List ProductRecord)) :
    (settings.layoutType.getD LayoutType.GRID = LayoutType.ONE_PER_PAGE →
      ∀ items : List GroupedItem,
        buildPdfPages settings items
            = items.map (onePerPageLayout (buildWatermarkConfig settings)) ∧
        (buildPdfPages settings items).length = items.length) ∧
    (settings.layoutType.getD LayoutType.GRID = LayoutType.GRID →
      buildPdfPages settings (flattenGrouped leading sections)
          = chunkPages (buildWatermarkConfig settings)
              (3 * ((settings.gridColumns.map GridColumns.toNat).getD 3)) leading ++
            sections.flatMap (fun s =>
              Page.mk (drawWatermark (buildWatermarkConfig settings))
                  (PageContent.header s.1) ::
                chunkPages (buildWatermarkConfig settings)
                  (3 * ((settings.gridColumns.map GridColumns.toNat).getD 3)) s.2) ∧
      (buildPdfPages settings (flattenGrouped leading sections)).length
          = ceilDiv leading.length
              (3 * ((settings.gridColumns.map GridColumns.toNat).getD 3)) +
            (sections.map (fun s => 1 + ceilDiv s.2.length
              (3 * ((settings.gridColumns.map GridColumns.toNat).getD 3)))).sum) := by
  have hcols := gridColumnsNat_pos settings
  have h3 : 1 ≤ 3 * ((settings.gridColumns.map GridColumns.toNat).getD 3) := by omega
  constructor
  · intro hlayout items
    constructor
    · simp only [buildPdfPages, hlayout]
    · simp only [buildPdfPages, hlayout, List.length_map]
  · intro hlayout
    have hmain : buildPdfPages settings (flattenGrouped leading sections)
        = chunkPages (buildWatermarkConfig settings)
            (3 * ((settings.gridColumns.map GridColumns.toNat).getD 3)) leading ++
          sections.flatMap (fun s =>
            Page.mk (drawWatermark (buildWatermarkConfig settings))
                (PageContent.header s.1) ::
              chunkPages (buildWatermarkConfig settings)
                (3 * ((settings.gridColumns.map GridColumns.toNat).getD 3)) s.2) := by
      simp only [buildPdfPages, hlayout]
      exact gridPagesAux_flatten _ _ hcols _ leading sections (Nat.le_refl _)
    refine ⟨hmain, ?_⟩
    rw [hmain]
    rw [List.length_append, chunkPages_length _ _ h3, flatMap_pages_length _ _ h3]

/-- Witness for C2 at concrete GRID settings (2 columns), one leading run of
7 products and two sections of 1 and 6 products. -/
theorem buildPdf_page_structure_witness :
    ((ExportSettings.mk none none none none (some LayoutType.GRID)
        (some GridColumns.two) none none none none none none none none none
        none).layoutType.getD LayoutType.GRID = LayoutType.GRID) ∧
    (buildPdfPages
        (ExportSettings.mk none none none none (some LayoutType.GRID)
          (some GridColumns.two) none none none none none none none none none
          none)
        (flattenGrouped (List.replicate 7 trivialRecord)
          [("A", List.replicate 1 trivialRecord),
           ("B", List.replicate 6 trivialRecord)])).length = 6 := by
  constructor
  · rfl
  · have h := (buildPdf_page_structure
      (ExportSettings.mk none none none none (some LayoutType.GRID)
        (some GridColumns.two) none none none none none none none none none
        none)
      (List.replicate 7 trivialRecord)
      [("A", List.replicate 1 trivialRecord),
       ("B", List.replicate 6 trivialRecord)]).2 rfl
    rw [h.2]
    rfl

/- ### C10: watermark with empty text -/

theorem gridPagesAux_watermark_congr (wm1 wm2 : Option WatermarkConfig)
    (h : drawWatermark wm1 = drawWatermark wm2) (cols : Nat) :
    ∀ (fuel : Nat) (items : List GroupedItem),
      gridPagesAux wm1 cols fuel items = gridPagesAux wm2 cols fuel items := by
  intro fuel
  induction fuel with
  | zero => intro items; rfl
  | succ f ih =>
      intro items
      cases items with
      | nil => rfl
      | cons hd rest =>
          cases hd with
          | header t => simp only [gridPagesAux, h, ih]
          | product r => simp only [gridPagesAux, h, ih]

/-- C10: if the watermark is enabled but its text is unset or empty, `buildPdf`
draws no watermark on any page: the page sequence equals the one produced with
the watermark disabled. -/
theorem watermark_empty_text_noop (settings : ExportSettings)
    (items : List GroupedItem)
    (henabled : settings.watermarkEnabled = some true)
    (htext : settings.watermarkText = none ∨ settings.watermarkText = some "") :
    buildPdfPages settings items =
      buildPdfPages { settings with watermarkEnabled := some false } items := by
  have hwm : drawWatermark (buildWatermarkConfig settings)
      = drawWatermark (buildWatermarkConfig
          { settings with watermarkEnabled := some false }) := by
    have h1 : buildWatermarkConfig { settings with watermarkEnabled := some false }
        = none := by
      simp [buildWatermarkConfig]
    rw [h1]
    rcases htext with ht | ht <;>
      simp [buildWatermarkConfig, henabled, ht, drawWatermark]
  unfold buildPdfPages
  dsimp only
  cases hl : settings.layoutType.getD LayoutType.GRID with
  | ONE_PER_PAGE =>
      apply List.map_congr_left
      intro item _
      cases item <;> simp [onePerPageLayout, hwm]
  | GRID => exact gridPagesAux_watermark_congr _ _ hwm _ _ _

/-- Witness for C10 at concrete settings and items. -/
theorem watermark_empty_text_noop_witness :
    (ExportSettings.mk none none none none (some LayoutType.GRID)
        none none none none (some true) (some "") none none none none
        none).watermarkEnabled = some true ∧
    buildPdfPages
        (ExportSettings.mk none none none none (some LayoutType.GRID)
          none none none none (some true) (some "") none none none none none)
        [GroupedItem.header "H", GroupedItem.product trivialRecord] =
      buildPdfPages
        { ExportSettings.mk none none none none (some LayoutType.GRID)
            none none none none (some true) (some "") none none none none none
          with watermarkEnabled := some false }
        [GroupedItem.header "H", GroupedItem.product trivialRecord] :=
  ⟨rfl,
   watermark_empty_text_noop
     (ExportSettings.mk none none none none (some LayoutType.GRID)
       none none none none (some true) (some "") none none none none none)
     [GroupedItem.header "H", GroupedItem.product trivialRecord]
     rfl (Or.inr rfl)⟩

/- ### Pricing (`buildProductRecord`, `sortRecords`) -/

/-- Digit run to a natural number. -/
def digitsToNat (ds : List Char) : Nat :=
  ds.foldl (fun acc c => acc * 10 + (c.toNat - 48)) 0

/-- Decimal parsing, modelling `Number(...)` on plain decimal numerals
(optional sign, digits, optional fraction).  Inputs outside that grammar give
`none`, standing for `NaN`; IEEE-754 rounding is idealised away by using exact
rationals. -/
def splitOnDot (cs : List Char) : List (List Char) :=
  match cs with
  | [] => [[]]
  | c :: rest =>
      let r := splitOnDot rest
      if c = '.' then [] :: r
      else
        match r with
        | [] => [[c]]
        | g :: gs => (c :: g) :: gs

def parseUnsignedChars (cs : List Char) : Option ℚ :=
  match splitOnDot cs with
  | [intPart] =>
      if ¬ intPart.isEmpty ∧ intPart.all Char.isDigit then
        some ((digitsToNat intPart : ℚ))
      else none
  | [intPart, fracPart] =>
      if (¬ intPart.isEmpty ∨ ¬ fracPart.isEmpty) ∧ intPart.all Char.isDigit ∧
          fracPart.all Char.isDigit then
        some ((digitsToNat intPart : ℚ) +
          (digitsToNat fracPart : ℚ) / (10 ^ fracPart.length : ℚ))
      else none
  | _ => none

def parseDecimal (s : String) : Option ℚ :=
  match s.data with
  | '-' :: rest => (parseUnsignedChars rest).map Neg.neg
  | '+' :: rest => parseUnsignedChars rest
  | cs => parseUnsignedChars cs

/-- Decimal formatting, modelling `String(n)` for numbers whose shortest
round-trip representation is a plain decimal of at most 20 fractional digits
(which covers every value the pipeline formats back from parsed prices). -/
def formatDecimalNonneg (q : ℚ) : String :=
  match (List.range 21).find? (fun k => ((q * (10 ^ k : ℚ)).den = 1 : Bool)) with
  | some k =>
      let scaled := (q * (10 ^ k : ℚ)).num.toNat
      let digits := (toString scaled).data
      if k = 0 then String.mk digits
      else
        let padded :=
          if digits.length < k + 1 then
            List.replicate (k + 1 - digits.length) '0' ++ digits
          else digits
        String.mk (padded.take (padded.length - k)) ++ "." ++
          String.mk (padded.drop (padded.length - k))
  | none => "?"

def formatDecimal (q : ℚ) : String :=
  if q < 0 then "-" ++ formatDecimalNonneg (-q) else formatDecimalNonneg q

/-- `String(n)` where `n` may be `NaN` (modelled as `none`). -/
def formatJsNumber : Option ℚ → String
  | none => "NaN"
  | some q => formatDecimal q

/-- `Math.min(...xs)` over a non-empty spread, with `NaN` propagation. -/
def jsMinList : List (Option ℚ) → Option ℚ
  | [] => none
  | x :: rest =>
      rest.foldl (fun acc y =>
        match acc, y with
        | some a, some b => some (min a b)
        | _, _ => none) x

/-- `Math.max(...xs)` over a non-empty spread, with `NaN` propagation. -/
def jsMaxList : List (Option ℚ) → Option ℚ
  | [] => none
  | x :: rest =>
      rest.foldl (fun acc y =>
        match acc, y with
        | some a, some b => some (max a b)
        | _, _ => none) x

/-- `variants.map(v => v.price).filter(Boolean)`: the truthy variant prices
(null and empty-string prices are dropped). -/
def truthyVariantPrices (variants : List ProductVariant) : List String :=
  (variants.map ProductVariant.price).filterMap (fun p =>
    match p with
    | some s => if s = "" then none else some s
    | none => none)

/-- `buildProductRecord` from pipeline.ts. -/
def buildProductRecord (product : ProductAccumulator)
    (settings : ExportSettings) : ProductRecord :=
  let pricingMode := settings.pricingMode.getD PricingMode.DEFAULT_VARIANT_PRICE
  let variants := product.variants
  let price : Option Price :=
    match pricingMode with
    | PricingMode.DEFAULT_VARIANT_PRICE =>
        (variants.head?.bind ProductVariant.price).map Price.scalar
    | PricingMode.MIN_MAX_RANGE =>
        let prices := truthyVariantPrices variants
        if prices.length > 0 then
          let numeric := prices.map parseDecimal
          some (Price.range (formatJsNumber (jsMinList numeric))
            (formatJsNumber (jsMaxList numeric)))
        else none
    | PricingMode.VARIANT_TABLE =>
        some (Price.table (variants.map (fun v => (v.title, v.price))))
  let coverUrl :=
    match product.featuredImageUrl with
    | some u => some u
    | none => product.imageUrls.head?
  ⟨product.id, product.title, product.handle, product.vendor,
   product.productType, product.status, coverUrl, product.createdAt,
   product.updatedAt, product.collections, none, none, price⟩

/-- `sortRecords`: a stable sort by the configured key (the JS engine sort is
stable; locale-aware comparison is modelled as string order). -/
def sortRecords (records : List ProductRecord) (settings : ExportSettings) :
    List ProductRecord :=
  match settings.sortOrder.getD SortOrder.TITLE_ASC with
  | SortOrder.TITLE_ASC =>
      records.mergeSort (fun a b => (a.title.getD "") ≤ (b.title.getD ""))
  | SortOrder.CREATED_DESC =>
      records.mergeSort (fun a b => (b.createdAt.getD "") ≤ (a.createdAt.getD ""))
  | SortOrder.UPDATED_DESC =>
      records.mergeSort (fun a b => (b.updatedAt.getD "") ≤ (a.updatedAt.getD ""))
  | SortOrder.COLLECTION_ORDER => records

/- ### C8: MIN_MAX_RANGE price resolution -/

theorem foldMin_spec (rest : List ℚ) : ∀ a : ℚ,
    ∃ m, (rest.map some).foldl (fun acc y =>
        match acc, y with
        | some a, some b => some (min a b)
        | _, _ => none) (some a) = some m ∧
      (m = a ∨ m ∈ rest) ∧ m ≤ a ∧ ∀ q ∈ rest, m ≤ q := by
  induction rest with
  | nil => intro a; exact ⟨a, rfl, Or.inl rfl, le_refl a, by simp⟩
  | cons b rest ih =>
      intro a
      obtain ⟨m, hfold, hmem, hle, hbound⟩ := ih (min a b)
      refine ⟨m, hfold, ?_, le_trans hle (min_le_left a b), ?_⟩
      · rcases hmem with h | h
        · rcases le_total a b with hab | hba
          · exact Or.inl (h.trans (min_eq_left hab))
          · exact Or.inr (by simp [h.trans (min_eq_right hba)])
        · exact Or.inr (by simp [h])
      · intro q hq
        rcases List.mem_cons.mp hq with rfl | hq
        · exact le_trans hle (min_le_right a q)
        · exact hbound q hq

theorem foldMax_spec (rest : List ℚ) : ∀ a : ℚ,
    ∃ m, (rest.map some).foldl (fun acc y =>
        match acc, y with
        | some a, some b => some (max a b)
        | _, _ => none) (some a) = some m ∧
      (m = a ∨ m ∈ rest) ∧ a ≤ m ∧ ∀ q ∈ rest, q ≤ m := by
  induction rest with
  | nil => intro a; exact ⟨a, rfl, Or.inl rfl, le_refl a, by simp⟩
  | cons b rest ih =>
      intro a
      obtain ⟨m, hfold, hmem, hle, hbound⟩ := ih (max a b)
      refine ⟨m, hfold, ?_, le_trans (le_max_left a b) hle, ?_⟩
      · rcases hmem with h | h
        · rcases le_total a b with hab | hba
          · exact Or.inr (by simp [h.trans (max_eq_right hab)])
          · exact Or.inl (h.trans (max_eq_left hba))
        · exact Or.inr (by simp [h])
      · intro q hq
        rcases List.mem_cons.mp hq with rfl | hq
        · exact le_trans (le_max_right a q) hle
        · exact hbound q hq

theorem jsMinList_spec (qs : List ℚ) (h : qs ≠ []) :
    ∃ qmin, jsMinList (qs.map some) = some qmin ∧ qmin ∈ qs ∧ ∀ q ∈ qs, qmin ≤ q := by
  cases qs with
  | nil => exact absurd rfl h
  | cons a rest =>
      obtain ⟨m, hfold, hmem, hle, hbound⟩ := foldMin_spec rest a
      refine ⟨m, ?_, ?_, ?_⟩
      · simpa [jsMinList] using hfold
      · rcases hmem with rfl | hm
        · exact List.mem_cons_self _ _
        · exact List.mem_cons_of_mem _ hm
      · intro q hq
        rcases List.mem_cons.mp hq with rfl | hq
        · exact hle
        · exact hbound q hq

theorem jsMaxList_spec (qs : List ℚ) (h : qs ≠ []) :
    ∃ qmax, jsMaxList (qs.map some) = some qmax ∧ qmax ∈ qs ∧ ∀ q ∈ qs, q ≤ qmax := by
  cases qs with
  | nil => exact absurd rfl h
  | cons a rest =>
      obtain ⟨m, hfold, hmem, hle, hbound⟩ := foldMax_spec rest a
      refine ⟨m, ?_, ?_, ?_⟩
      · simpa [jsMaxList] using hfold
      · rcases hmem with rfl | hm
        · exact List.mem_cons_self _ _
        · exact List.mem_cons_of_mem _ hm
      · intro q hq
        rcases List.mem_cons.mp hq with rfl | hq
        · exact hle
        · exact hbound q hq

/-- C8 counterexample: under MIN_MAX_RANGE, an accumulator whose only variant
price is the non-null empty string `""` gets a null price, although it does
have a non-null variant price — the code filters all falsy prices, not only
null ones, so the claim as stated fails on this input. -/
theorem minMaxRange_empty_string_counterexample :
    (buildProductRecord
        ⟨"p1", none, none, none, none, none, none, none, none, [], [],
         [⟨"v1", "Default", some ""⟩]⟩
        (ExportSettings.mk none none (some PricingMode.MIN_MAX_RANGE) none none
          none none none none none none none none none none none)).price = none ∧
    ([⟨"v1", "Default", some ""⟩] : List ProductVariant).filterMap
        ProductVariant.price ≠ [] := by
  exact ⟨rfl, by simp⟩

/-- C8 (amended): under MIN_MAX_RANGE, `buildProductRecord` parses all truthy
(non-null, non-empty) variant prices as decimal numbers and sets the price to
`{min, max}` with the numeric extremes of the parsed values formatted back to
strings; when there are no truthy variant prices the price is null. -/
theorem buildProductRecord_min_max_spec (product : ProductAccumulator)
    (settings : ExportSettings)
    (hmode : settings.pricingMode = some PricingMode.MIN_MAX_RANGE)
    (qs : List ℚ)
    (hparse : (truthyVariantPrices product.variants).map parseDecimal = qs.map some) :
    (truthyVariantPrices product.variants = [] →
      (buildProductRecord product settings).price = none) ∧
    (truthyVariantPrices product.variants ≠ [] →
      ∃ qmin qmax,
        (buildProductRecord product settings).price =
          some (Price.range (formatDecimal qmin) (formatDecimal qmax)) ∧
        qmin ∈ qs ∧ qmax ∈ qs ∧ ∀ q ∈ qs, qmin ≤ q ∧ q ≤ qmax) := by
  constructor
  · intro hempty
    simp [buildProductRecord, hmode, hempty]
  · intro hne
    have hqs : qs ≠ [] := by
      intro hq
      rw [hq] at hparse
      simp at hparse
      exact hne hparse
    obtain ⟨qmin, hminfold, hminmem, hminle⟩ := jsMinList_spec qs hqs
    obtain ⟨qmax, hmaxfold, hmaxmem, hmaxle⟩ := jsMaxList_spec qs hqs
    have hlen : (truthyVariantPrices product.variants).length > 0 :=
      List.length_pos.mpr hne
    refine ⟨qmin, qmax, ?_, hminmem, hmaxmem, fun q hq => ⟨hminle q hq, hmaxle q hq⟩⟩
    simp only [buildProductRecord, hmode]
    rw [if_pos hlen, hparse, hminfold, hmaxfold]
    rfl

/-- Witness for C8 at two variant prices "10" and "25". -/
theorem buildProductRecord_min_max_spec_witness :
    (ExportSettings.mk none none (some PricingMode.MIN_MAX_RANGE) none none
        none none none none none none none none none none none).pricingMode
      = some PricingMode.MIN_MAX_RANGE ∧
    (truthyVariantPrices
        [⟨"v1", "A", some "10"⟩, ⟨"v2", "B", some "25"⟩]).map parseDecimal
      = ([10, 25] : List ℚ).map some ∧
    (truthyVariantPrices [⟨"v1", "A", some "10"⟩, ⟨"v2", "B", some "25"⟩] ≠ [] →
      ∃ qmin qmax,
        (buildProductRecord
            ⟨"p1", none, none, none, none, none, none, none, none, [], [],
             [⟨"v1", "A", some "10"⟩, ⟨"v2", "B", some "25"⟩]⟩
            (ExportSettings.mk none none (some PricingMode.MIN_MAX_RANGE) none
              none none none none none none none none none none none none)).price =
          some (Price.range (formatDecimal qmin) (formatDecimal qmax)) ∧
        qmin ∈ ([10, 25] : List ℚ) ∧ qmax ∈ ([10, 25] : List ℚ) ∧
        ∀ q ∈ ([10, 25] : List ℚ), qmin ≤ q ∧ q ≤ qmax) :=
  ⟨rfl, by decide,
   (buildProductRecord_min_max_spec
     ⟨"p1", none, none, none, none, none, none, none, none, [], [],
      [⟨"v1", "A", some "10"⟩, ⟨"v2", "B", some "25"⟩]⟩
     (ExportSettings.mk none none (some PricingMode.MIN_MAX_RANGE) none
       none none none none none none none none none none none none)
     rfl ([10, 25] : List ℚ) (by decide)).2⟩


/- ### Bulk result parsing (`parseBulkResults`) -/

/-- One parsed JSONL line of a bulk result, carrying the fields the code
inspects.  `featuredImageUrl` stands for `featuredImage?.url` and
`firstImageUrl` for `images?.nodes?.[0]?.url`.  `price` distinguishes an
absent field (`none`) from a present null (`some none`), because the code
tests `record.price !== undefined`. -/
structure BulkLine where
  id : Option String
  __parentId : Option String
  title : Option String
  handle : Option String
  vendor : Option String
  productType : Option String
  status : Option String
  createdAt : Option String
  updatedAt : Option String
  featuredImageUrl : Option String
  firstImageUrl : Option String
  price : Option (Option String)
  url : Option String
deriving DecidableEq, Repr

/-- The insertion-ordered `Map<string, ProductAccumulator>`. -/
abbrev AccMap := List (String × ProductAccumulator)

def mapGet (m : AccMap) (k : String) : Option ProductAccumulator :=
  (m.find? (fun p => p.1 == k)).map Prod.snd

/-- `Map.prototype.set`: an existing key keeps its position, a new key is
appended at the end. -/
def mapSet (m : AccMap) (k : String) (v : ProductAccumulator) : AccMap :=
  if m.any (fun p => p.1 == k) then
    m.map (fun p => if p.1 == k then (k, v) else p)
  else m ++ [(k, v)]

/-- The stub accumulator created on first sight of an id. -/
def freshAcc (id : String) : ProductAccumulator :=
  ⟨id, none, none, none, none, none, none, none, none, [], [], []⟩

/-- Effect of a top-level product line on its accumulator: overwrite the
scalar fields and push the first image URL when truthy. -/
def applyTopLine (r : BulkLine) (acc : ProductAccumulator) : ProductAccumulator :=
  { acc with
    title := r.title, handle := r.handle, vendor := r.vendor,
    productType := r.productType, status := r.status,
    createdAt := r.createdAt, updatedAt := r.updatedAt,
    featuredImageUrl := r.featuredImageUrl,
    imageUrls :=
      if truthyStr r.firstImageUrl then acc.imageUrls ++ [r.firstImageUrl.getD ""]
      else acc.imageUrls }

/-- The loop body of `parseBulkResults` for one line.  The first two branches
(`continue` in the source) are exclusive; the image and collection blocks are
not separated by a `continue` and can both fire for one line. -/
def applyLine (m : AccMap) (r : BulkLine) : AccMap :=
  if !truthyStr r.__parentId && truthyStr r.id then
    let id := r.id.getD ""
    mapSet m id (applyTopLine r ((mapGet m id).getD (freshAcc id)))
  else if truthyStr r.__parentId && r.price.isSome then
    let parentId := r.__parentId.getD ""
    let product := (mapGet m parentId).getD (freshAcc parentId)
    mapSet m parentId
      { product with
        variants := product.variants ++
          [⟨r.id.getD "", r.title.getD "", r.price.getD none⟩] }
  else
    let m1 :=
      if truthyStr r.__parentId && truthyStr r.url then
        let parentId := r.__parentId.getD ""
        let product := (mapGet m parentId).getD (freshAcc parentId)
        mapSet m parentId
          { product with imageUrls := product.imageUrls ++ [r.url.getD ""] }
      else m
    if truthyStr r.__parentId && truthyStr r.title && truthyStr r.id &&
        containsSubstr (r.id.getD "") "Collection" then
      let parentId := r.__parentId.getD ""
      let product := (mapGet m1 parentId).getD (freshAcc parentId)
      mapSet m1 parentId
        { product with
          collections := product.collections ++ [⟨r.id.getD "", r.title.getD ""⟩] }
    else m1

def parseBulkResults (lines : List BulkLine) : List ProductAccumulator :=
  (lines.foldl applyLine []).map Prod.snd

/- Classification of lines, mirroring the branch priorities of `applyLine`. -/

def isTopLine (r : BulkLine) : Bool :=
  !truthyStr r.__parentId && truthyStr r.id

def isVariantLine (r : BulkLine) : Bool :=
  truthyStr r.__parentId && r.price.isSome

def isImageLine (r : BulkLine) : Bool :=
  truthyStr r.__parentId && !r.price.isSome && truthyStr r.url

def isCollectionLine (r : BulkLine) : Bool :=
  truthyStr r.__parentId && !r.price.isSome && truthyStr r.title &&
    truthyStr r.id && containsSubstr (r.id.getD "") "Collection"

/-- The line concerns product id `k` (creates or updates its accumulator). -/
def touches (r : BulkLine) (k : String) : Bool :=
  (isTopLine r && r.id.getD "" == k) ||
    ((isVariantLine r || isImageLine r || isCollectionLine r) &&
      r.__parentId.getD "" == k)

/-- Effect of one line on the accumulator of `k` alone. -/
def applyLineAcc (r : BulkLine) (k : String) (acc : ProductAccumulator) :
    ProductAccumulator :=
  if isTopLine r && r.id.getD "" == k then applyTopLine r acc
  else if isVariantLine r && r.__parentId.getD "" == k then
    { acc with variants := acc.variants ++
        [⟨r.id.getD "", r.title.getD "", r.price.getD none⟩] }
  else
    let acc1 :=
      if isImageLine r && r.__parentId.getD "" == k then
        { acc with imageUrls := acc.imageUrls ++ [r.url.getD ""] }
      else acc
    if isCollectionLine r && r.__parentId.getD "" == k then
      { acc1 with collections := acc1.collections ++
          [⟨r.id.getD "", r.title.getD ""⟩] }
    else acc1

/- Stream-order extraction of each accumulator component. -/

def variantsOf (lines : List BulkLine) (k : String) : List ProductVariant :=
  lines.filterMap (fun r =>
    if isVariantLine r && r.__parentId.getD "" == k then
      some ⟨r.id.getD "", r.title.getD "", r.price.getD none⟩
    else none)

def imagesOf (lines : List BulkLine) (k : String) : List String :=
  lines.filterMap (fun r =>
    if isTopLine r && r.id.getD "" == k && truthyStr r.firstImageUrl then
      some (r.firstImageUrl.getD "")
    else if isImageLine r && r.__parentId.getD "" == k then
      some (r.url.getD "")
    else none)

def collectionsOf (lines : List BulkLine) (k : String) : List CollectionRef :=
  lines.filterMap (fun r =>
    if isCollectionLine r && r.__parentId.getD "" == k then
      some ⟨r.id.getD "", r.title.getD ""⟩
    else none)

def topLinesOf (lines : List BulkLine) (k : String) : List BulkLine :=
  lines.filter (fun r => isTopLine r && r.id.getD "" == k)

def scalarProj (acc : ProductAccumulator) : List (Option String) :=
  [acc.title, acc.handle, acc.vendor, acc.productType, acc.status,
   acc.createdAt, acc.updatedAt, acc.featuredImageUrl]

def scalarProjLine (r : BulkLine) : List (Option String) :=
  [r.title, r.handle, r.vendor, r.productType, r.status, r.createdAt,
   r.updatedAt, r.featuredImageUrl]

/-- The scalar fields of `k`'s accumulator: those of the last top-level line
for `k`, or all null if no top-level line arrived. -/
def scalarsOf (lines : List BulkLine) (k : String) : List (Option String) :=
  match (topLinesOf lines k).getLast? with
  | some r => scalarProjLine r
  | none => List.replicate 8 none


/- Map lemmas for the upsert store. -/

theorem find_map_upsert (m : AccMap) (k : String) (v : ProductAccumulator)
    (h : m.any (fun p => p.1 == k) = true) :
    (m.map (fun p => if p.1 == k then (k, v) else p)).find? (fun p => p.1 == k)
      = some (k, v) := by
  induction m with
  | nil => simp at h
  | cons p rest ih =>
      by_cases hp : (p.1 == k) = true
      · simp only [List.map_cons, hp, if_true]
        exact List.find?_cons_of_pos _ (by simp)
      · have hpf : (p.1 == k) = false := Bool.eq_false_iff.mpr hp
        simp only [List.map_cons, hpf, Bool.false_eq_true, if_false]
        rw [List.find?_cons_of_neg _ (by simp [hpf])]
        apply ih
        simp only [List.any_cons, hpf, Bool.false_or] at h
        exact h

theorem find_append_new (m : AccMap) (k : String) (v : ProductAccumulator)
    (h : m.any (fun p => p.1 == k) = false) :
    (m ++ [(k, v)]).find? (fun p => p.1 == k) = some (k, v) := by
  induction m with
  | nil => simp [List.find?]
  | cons p rest ih =>
      simp only [List.any_cons, Bool.or_eq_false_iff] at h
      simp [List.find?, h.1, ih h.2]

theorem mapGet_mapSet_self (m : AccMap) (k : String) (v : ProductAccumulator) :
    mapGet (mapSet m k v) k = some v := by
  unfold mapGet mapSet
  by_cases h : m.any (fun p => p.1 == k) = true
  · rw [if_pos h, find_map_upsert m k v h]
    rfl
  · rw [if_neg h, find_append_new m k v (Bool.eq_false_iff.mpr h)]
    rfl

theorem find_map_ne (m : AccMap) (k k2 : String) (v : ProductAccumulator)
    (hne : k ≠ k2) :
    (m.map (fun p => if p.1 == k2 then (k2, v) else p)).find? (fun p => p.1 == k)
      = m.find? (fun p => p.1 == k) := by
  induction m with
  | nil => rfl
  | cons p rest ih =>
      by_cases hp : (p.1 == k2) = true
      · have hpk : p.1 = k2 := eq_of_beq hp
        have h1 : (k2 == k) = false := beq_eq_false_iff_ne.mpr (Ne.symm hne)
        have h2 : (p.1 == k) = false := by rw [hpk]; exact h1
        simp only [List.map_cons, hp, if_true]
        rw [List.find?_cons_of_neg _ (by simp [h1]),
          List.find?_cons_of_neg _ (by simp [h2])]
        exact ih
      · have hpf : (p.1 == k2) = false := Bool.eq_false_iff.mpr hp
        simp only [List.map_cons, hpf, Bool.false_eq_true, if_false]
        by_cases hpk : (p.1 == k) = true
        · rw [List.find?_cons_of_pos _ (by simp [hpk]),
            List.find?_cons_of_pos _ (by simp [hpk])]
        · rw [List.find?_cons_of_neg _ (by simp [hpk]),
            List.find?_cons_of_neg _ (by simp [hpk])]
          exact ih

theorem mapGet_mapSet_ne (m : AccMap) (k k2 : String) (v : ProductAccumulator)
    (hne : k ≠ k2) : mapGet (mapSet m k2 v) k = mapGet m k := by
  unfold mapGet mapSet
  by_cases h : m.any (fun p => p.1 == k2) = true
  · rw [if_pos h, find_map_ne m k k2 v hne]
  · rw [if_neg h, List.find?_append]
    have : ([((k2 : String), v)].find? (fun p => p.1 == k)) = none := by
      simp [List.find?, beq_eq_false_iff_ne.mpr (Ne.symm hne)]
    rw [this]
    simp

theorem keys_mapSet_mem (m : AccMap) (k : String) (v : ProductAccumulator)
    (h : m.any (fun p => p.1 == k) = true) :
    (mapSet m k v).map Prod.fst = m.map Prod.fst := by
  unfold mapSet
  rw [if_pos h, List.map_map]
  apply List.map_congr_left
  intro p _
  by_cases hp : (p.1 == k) = true
  · simp [hp, Function.comp, eq_of_beq hp]
  · simp [hp, Function.comp]

theorem keys_mapSet_new (m : AccMap) (k : String) (v : ProductAccumulator)
    (h : m.any (fun p => p.1 == k) = false) :
    (mapSet m k v).map Prod.fst = m.map Prod.fst ++ [k] := by
  unfold mapSet
  rw [if_neg (by simp [h])]
  simp

theorem nodup_keys_mapSet (m : AccMap) (k : String) (v : ProductAccumulator)
    (h : (m.map Prod.fst).Nodup) : ((mapSet m k v).map Prod.fst).Nodup := by
  by_cases hmem : m.any (fun p => p.1 == k) = true
  · rw [keys_mapSet_mem m k v hmem]
    exact h
  · rw [keys_mapSet_new m k v (Bool.eq_false_iff.mpr hmem)]
    have hk : k ∉ m.map Prod.fst := by
      intro hkmem
      obtain ⟨p, hpmem, hpk⟩ := List.mem_map.mp hkmem
      apply hmem
      exact List.any_eq_true.mpr ⟨p, hpmem, by simp [hpk]⟩
    simp [List.nodup_append, h, hk]

theorem nodup_keys_applyLine (m : AccMap) (r : BulkLine)
    (h : (m.map Prod.fst).Nodup) : ((applyLine m r).map Prod.fst).Nodup := by
  unfold applyLine
  split_ifs with h1 h2 h3 h4 h5 h6 <;>
    first
      | exact nodup_keys_mapSet _ _ _ h
      | exact nodup_keys_mapSet _ _ _ (nodup_keys_mapSet _ _ _ h)
      | exact h

theorem nodup_keys_fold (lines : List BulkLine) :
    ∀ m : AccMap, (m.map Prod.fst).Nodup →
      ((lines.foldl applyLine m).map Prod.fst).Nodup := by
  induction lines with
  | nil => intro m h; exact h
  | cons r rest ih => intro m h; exact ih (applyLine m r) (nodup_keys_applyLine m r h)

theorem mapGet_applyLine (m : AccMap) (r : BulkLine) (k : String) :
    mapGet (applyLine m r) k =
      if touches r k then
        some (applyLineAcc r k ((mapGet m k).getD (freshAcc k)))
      else mapGet m k := by
  by_cases h1 : (!truthyStr r.__parentId && truthyStr r.id) = true
  · have hTop : isTopLine r = true := h1
    have hNp : truthyStr r.__parentId = false := by
      have h := (Bool.and_eq_true _ _).mp h1
      simpa using h.1
    simp only [applyLine]
    rw [if_pos h1]
    by_cases hk : (r.id.getD "" == k) = true
    · have hkeq : r.id.getD "" = k := eq_of_beq hk
      have htouch : touches r k = true := by simp [touches, hTop, hk]
      rw [hkeq, mapGet_mapSet_self, if_pos htouch]
      simp [applyLineAcc, hTop, hkeq]
    · have hkne : k ≠ r.id.getD "" := by
        intro he
        rw [he] at hk
        simp at hk
      have hkf : (r.id.getD "" == k) = false := Bool.eq_false_iff.mpr hk
      have htouch : touches r k = false := by
        simp [touches, isVariantLine, isImageLine, isCollectionLine, hNp, hkf]
      rw [mapGet_mapSet_ne m k _ _ hkne, if_neg (by simp [htouch])]
  · by_cases h2 : (truthyStr r.__parentId && r.price.isSome) = true
    · have hV : isVariantLine r = true := h2
      have hp : truthyStr r.__parentId = true := ((Bool.and_eq_true _ _).mp h2).1
      have hTopf : isTopLine r = false := by simp [isTopLine, hp]
      simp only [applyLine]
      rw [if_neg h1, if_pos h2]
      by_cases hk : (r.__parentId.getD "" == k) = true
      · have hkeq : r.__parentId.getD "" = k := eq_of_beq hk
        have htouch : touches r k = true := by simp [touches, hV, hk]
        rw [hkeq, mapGet_mapSet_self, if_pos htouch]
        simp [applyLineAcc, hTopf, hV, hkeq]
      · have hkne : k ≠ r.__parentId.getD "" := by
          intro he
          rw [he] at hk
          simp at hk
        have hkf : (r.__parentId.getD "" == k) = false := Bool.eq_false_iff.mpr hk
        have htouch : touches r k = false := by
          simp [touches, isTopLine, hp, hkf]
        rw [mapGet_mapSet_ne m k _ _ hkne, if_neg (by simp [htouch])]
    · have hVf : isVariantLine r = false := Bool.eq_false_iff.mpr h2
      simp only [applyLine]
      rw [if_neg h1, if_neg h2]
      by_cases hp : truthyStr r.__parentId = true
      · have hTopf : isTopLine r = false := by simp [isTopLine, hp]
        have hprice : r.price.isSome = false := by
          cases hpi : r.price.isSome
          · rfl
          · exact absurd (by simp [hp, hpi]) h2
        have hIiff : isImageLine r = truthyStr r.url := by
          simp [isImageLine, hp, hprice]
        have hCiff : isCollectionLine r =
            (truthyStr r.title && truthyStr r.id &&
              containsSubstr (r.id.getD "") "Collection") := by
          simp [isCollectionLine, hp, hprice, Bool.and_assoc]
        by_cases hk : (r.__parentId.getD "" == k) = true
        · have hkeq : r.__parentId.getD "" = k := eq_of_beq hk
          by_cases h3 : (truthyStr r.__parentId && truthyStr r.url) = true
          · have hurl : truthyStr r.url = true := ((Bool.and_eq_true _ _).mp h3).2
            have hI : isImageLine r = true := by rw [hIiff]; exact hurl
            rw [if_pos h3]
            by_cases h4 : (truthyStr r.__parentId && truthyStr r.title &&
                truthyStr r.id && containsSubstr (r.id.getD "") "Collection") = true
            · have hC : isCollectionLine r = true := by
                rw [hCiff]
                have h := h4
                simp only [Bool.and_eq_true] at h
                simp [h.1.1.2, h.1.2, h.2]
              rw [if_pos h4]
              have htouch : touches r k = true := by simp [touches, hI, hk]
              rw [hkeq, mapGet_mapSet_self, mapGet_mapSet_self, if_pos htouch]
              simp [applyLineAcc, hTopf, hVf, hI, hC, hkeq]
            · have hC : isCollectionLine r = false := by
                rw [hCiff]
                have h := Bool.eq_false_iff.mpr h4
                simp only [hp, Bool.true_and] at h ⊢
                simpa [Bool.and_assoc] using h
              rw [if_neg h4]
              have htouch : touches r k = true := by simp [touches, hI, hk]
              rw [hkeq, mapGet_mapSet_self, if_pos htouch]
              simp [applyLineAcc, hTopf, hVf, hI, hC, hkeq]
          · have hurl : truthyStr r.url = false := by
              cases hu : truthyStr r.url
              · rfl
              · exact absurd (by simp [hp, hu]) h3
            have hI : isImageLine r = false := by rw [hIiff]; exact hurl
            rw [if_neg h3]
            by_cases h4 : (truthyStr r.__parentId && truthyStr r.title &&
                truthyStr r.id && containsSubstr (r.id.getD "") "Collection") = true
            · have hC : isCollectionLine r = true := by
                rw [hCiff]
                have h := h4
                simp only [Bool.and_eq_true] at h
                simp [h.1.1.2, h.1.2, h.2]
              rw [if_pos h4]
              have htouch : touches r k = true := by simp [touches, hC, hk]
              rw [hkeq, mapGet_mapSet_self, if_pos htouch]
              simp [applyLineAcc, hTopf, hVf, hI, hC, hkeq]
            · have hC : isCollectionLine r = false := by
                rw [hCiff]
                have h := Bool.eq_false_iff.mpr h4
                simp only [hp, Bool.true_and] at h ⊢
                simpa [Bool.and_assoc] using h
              rw [if_neg h4]
              have htouch : touches r k = false := by
                simp [touches, hTopf, hVf, hI, hC]
              rw [if_neg (show ¬ (touches r k = true) from by simp [htouch])]
        · have hkne : k ≠ r.__parentId.getD "" := by
            intro he
            rw [he] at hk
            simp at hk
          have hkf : (r.__parentId.getD "" == k) = false := Bool.eq_false_iff.mpr hk
          have htouch : touches r k = false := by
            simp [touches, isTopLine, hp, hkf]
          rw [if_neg (show ¬ (touches r k = true) from by simp [htouch])]
          split_ifs with h3 h4 h4 <;>
            simp only [mapGet_mapSet_ne _ k _ _ hkne]
      · have hTopf : isTopLine r = false := by
          have : truthyStr r.id = false := by
            cases hid : truthyStr r.id
            · rfl
            · exact absurd (by simp [hp, hid]) h1
          simp [isTopLine, this]
        have hI : isImageLine r = false := by
          simp [isImageLine, show truthyStr r.__parentId = false from
            Bool.eq_false_iff.mpr hp]
        have hC : isCollectionLine r = false := by
          simp [isCollectionLine, show truthyStr r.__parentId = false from
            Bool.eq_false_iff.mpr hp]
        have htouch : touches r k = false := by
          simp [touches, hTopf, hVf, hI, hC]
        have hpf : truthyStr r.__parentId = false := Bool.eq_false_iff.mpr hp
        rw [if_neg (show ¬ (touches r k = true) from by simp [htouch])]
        rw [if_neg (show ¬ ((truthyStr r.__parentId && truthyStr r.url) = true)
              from by simp [hpf]),
          if_neg (show ¬ ((truthyStr r.__parentId && truthyStr r.title &&
              truthyStr r.id && containsSubstr (r.id.getD "") "Collection") = true)
              from by simp [hpf])]

theorem applyLineAcc_not_touches (r : BulkLine) (k : String)
    (h : touches r k = false) (acc : ProductAccumulator) :
    applyLineAcc r k acc = acc := by
  unfold touches at h
  cases hpid : (r.__parentId.getD "" == k) with
  | false =>
      simp only [hpid, Bool.and_false, Bool.or_false] at h
      simp [applyLineAcc, h, hpid]
  | true =>
      simp only [hpid, Bool.and_true, Bool.or_eq_false_iff] at h
      obtain ⟨h1, h2⟩ := h
      obtain ⟨⟨hV, hI⟩, hC⟩ : (isVariantLine r = false ∧ isImageLine r = false) ∧
          isCollectionLine r = false := by simpa using h2
      simp [applyLineAcc, h1, hV, hI, hC]

theorem mapGet_foldl_applyLine (lines : List BulkLine) :
    ∀ (m : AccMap) (k : String),
      mapGet (lines.foldl applyLine m) k =
        match mapGet m k with
        | some acc => some (lines.foldl (fun a r => applyLineAcc r k a) acc)
        | none =>
            if lines.any (fun r => touches r k) then
              some (lines.foldl (fun a r => applyLineAcc r k a) (freshAcc k))
            else none := by
  induction lines with
  | nil =>
      intro m k
      cases hm : mapGet m k <;> simp [hm]
  | cons r rest ih =>
      intro m k
      rw [List.foldl_cons, ih (applyLine m r) k, mapGet_applyLine m r k]
      by_cases ht : touches r k = true
      · rw [if_pos ht]
        cases hm : mapGet m k with
        | some acc => simp [hm, List.any_cons, ht]
        | none => simp [hm, List.any_cons, ht]
      · rw [if_neg ht]
        have htf : touches r k = false := Bool.eq_false_iff.mpr ht
        cases hm : mapGet m k with
        | some acc =>
            simp [hm, applyLineAcc_not_touches r k htf]
        | none =>
            simp [hm, List.any_cons, htf, applyLineAcc_not_touches r k htf]

theorem applyLineAcc_id (r : BulkLine) (k : String) (acc : ProductAccumulator) :
    (applyLineAcc r k acc).id = acc.id := by
  simp only [applyLineAcc, applyTopLine]
  split_ifs <;> rfl

theorem applyLineAcc_variants (r : BulkLine) (k : String) (acc : ProductAccumulator) :
    (applyLineAcc r k acc).variants = acc.variants ++
      (if isVariantLine r && (r.__parentId.getD "" == k) then
        [⟨r.id.getD "", r.title.getD "", r.price.getD none⟩] else []) := by
  by_cases h1 : (isTopLine r && (r.id.getD "" == k)) = true
  · have hparent : truthyStr r.__parentId = false := by
      have h := ((Bool.and_eq_true _ _).mp h1).1
      simp only [isTopLine, Bool.and_eq_true] at h
      simpa using h.1
    have hV : (isVariantLine r && (r.__parentId.getD "" == k)) = false := by
      simp [isVariantLine, hparent]
    simp [applyLineAcc, applyTopLine, h1, hV]
  · by_cases h2 : (isVariantLine r && (r.__parentId.getD "" == k)) = true
    · simp [applyLineAcc, h1, h2]
    · simp only [applyLineAcc]
      rw [if_neg h1, if_neg h2]
      simp only [Bool.eq_false_iff.mpr h2, Bool.false_eq_true, if_false]
      split_ifs <;> simp

theorem applyLineAcc_images (r : BulkLine) (k : String) (acc : ProductAccumulator) :
    (applyLineAcc r k acc).imageUrls = acc.imageUrls ++
      (if isTopLine r && (r.id.getD "" == k) && truthyStr r.firstImageUrl then
        [r.firstImageUrl.getD ""]
      else if isImageLine r && (r.__parentId.getD "" == k) then
        [r.url.getD ""]
      else []) := by
  by_cases h1 : (isTopLine r && (r.id.getD "" == k)) = true
  · have hparent : truthyStr r.__parentId = false := by
      have h := ((Bool.and_eq_true _ _).mp h1).1
      simp only [isTopLine, Bool.and_eq_true] at h
      simpa using h.1
    have hI : (isImageLine r && (r.__parentId.getD "" == k)) = false := by
      simp [isImageLine, hparent]
    by_cases hfi : truthyStr r.firstImageUrl = true
    · simp [applyLineAcc, applyTopLine, h1, hI, hfi]
    · have hfif : truthyStr r.firstImageUrl = false := Bool.eq_false_iff.mpr hfi
      simp [applyLineAcc, applyTopLine, h1, hI, hfif]
  · have h1f : (isTopLine r && (r.id.getD "" == k)) = false := Bool.eq_false_iff.mpr h1
    rw [show (isTopLine r && (r.id.getD "" == k) && truthyStr r.firstImageUrl) = false
      from by simp [h1f]]
    by_cases h2 : (isVariantLine r && (r.__parentId.getD "" == k)) = true
    · have hVparent : truthyStr r.__parentId = true := by
        have h := ((Bool.and_eq_true _ _).mp h2).1
        exact ((Bool.and_eq_true _ _).mp h).1
      have hprice : r.price.isSome = true := by
        have h := ((Bool.and_eq_true _ _).mp h2).1
        exact ((Bool.and_eq_true _ _).mp h).2
      have hI : (isImageLine r && (r.__parentId.getD "" == k)) = false := by
        simp [isImageLine, hprice]
      simp [applyLineAcc, h1, h2, hI]
    · simp only [applyLineAcc]
      rw [if_neg h1, if_neg h2]
      by_cases h3 : (isImageLine r && (r.__parentId.getD "" == k)) = true
      · rw [if_pos h3]
        split_ifs <;> simp_all
      · rw [if_neg h3]
        rw [show (isImageLine r && (r.__parentId.getD "" == k)) = false
          from Bool.eq_false_iff.mpr h3]
        simp only [Bool.false_eq_true, if_false]
        split_ifs <;> simp_all

theorem applyLineAcc_collections (r : BulkLine) (k : String)
    (acc : ProductAccumulator) :
    (applyLineAcc r k acc).collections = acc.collections ++
      (if isCollectionLine r && (r.__parentId.getD "" == k) then
        [⟨r.id.getD "", r.title.getD ""⟩] else []) := by
  by_cases h1 : (isTopLine r && (r.id.getD "" == k)) = true
  · have hparent : truthyStr r.__parentId = false := by
      have h := ((Bool.and_eq_true _ _).mp h1).1
      simp only [isTopLine, Bool.and_eq_true] at h
      simpa using h.1
    have hC : (isCollectionLine r && (r.__parentId.getD "" == k)) = false := by
      simp [isCollectionLine, hparent]
    simp [applyLineAcc, applyTopLine, h1, hC]
  · by_cases h2 : (isVariantLine r && (r.__parentId.getD "" == k)) = true
    · have hprice : r.price.isSome = true := by
        have h := ((Bool.and_eq_true _ _).mp h2).1
        exact ((Bool.and_eq_true _ _).mp h).2
      have hC : (isCollectionLine r && (r.__parentId.getD "" == k)) = false := by
        simp [isCollectionLine, hprice]
      simp [applyLineAcc, h1, h2, hC]
    · simp only [applyLineAcc]
      rw [if_neg h1, if_neg h2]
      by_cases h4 : (isCollectionLine r && (r.__parentId.getD "" == k)) = true
      · rw [if_pos h4, if_pos h4]
        split_ifs <;> simp
      · rw [if_neg h4]
        rw [show (isCollectionLine r && (r.__parentId.getD "" == k)) = false
          from Bool.eq_false_iff.mpr h4]
        simp only [Bool.false_eq_true, if_false]
        split_ifs <;> simp

theorem scalarProj_applyTopLine (r : BulkLine) (acc : ProductAccumulator) :
    scalarProj (applyTopLine r acc) = scalarProjLine r := by
  simp [scalarProj, scalarProjLine, applyTopLine]

theorem applyLineAcc_scalars (r : BulkLine) (k : String)
    (acc : ProductAccumulator) :
    scalarProj (applyLineAcc r k acc) =
      (if isTopLine r && (r.id.getD "" == k) then scalarProjLine r
       else scalarProj acc) := by
  by_cases h1 : (isTopLine r && (r.id.getD "" == k)) = true
  · simp [applyLineAcc, h1, scalarProj_applyTopLine]
  · rw [if_neg h1]
    simp only [applyLineAcc]
    rw [if_neg h1]
    split_ifs <;> simp [scalarProj]

/- Fold versions of the component lemmas. -/

theorem accFold_id (k : String) (lines : List BulkLine) :
    ∀ acc : ProductAccumulator,
      (lines.foldl (fun a r => applyLineAcc r k a) acc).id = acc.id := by
  induction lines with
  | nil => intro acc; rfl
  | cons r rest ih =>
      intro acc
      rw [List.foldl_cons, ih, applyLineAcc_id]

theorem accFold_variants (k : String) (lines : List BulkLine) :
    ∀ acc : ProductAccumulator,
      (lines.foldl (fun a r => applyLineAcc r k a) acc).variants =
        acc.variants ++ variantsOf lines k := by
  induction lines with
  | nil => intro acc; simp [variantsOf]
  | cons r rest ih =>
      intro acc
      rw [List.foldl_cons, ih, applyLineAcc_variants]
      simp only [variantsOf, List.filterMap_cons]
      by_cases hc : (isVariantLine r && (r.__parentId.getD "" == k)) = true
      · rw [if_pos hc, if_pos hc]
        simp [List.append_assoc]
      · rw [if_neg hc, if_neg hc]
        simp

theorem accFold_images (k : String) (lines : List BulkLine) :
    ∀ acc : ProductAccumulator,
      (lines.foldl (fun a r => applyLineAcc r k a) acc).imageUrls =
        acc.imageUrls ++ imagesOf lines k := by
  induction lines with
  | nil => intro acc; simp [imagesOf]
  | cons r rest ih =>
      intro acc
      rw [List.foldl_cons, ih, applyLineAcc_images]
      simp only [imagesOf, List.filterMap_cons]
      by_cases hc1 : (isTopLine r && (r.id.getD "" == k) && truthyStr r.firstImageUrl) = true
      · rw [if_pos hc1, if_pos hc1]
        simp [List.append_assoc]
      · rw [if_neg hc1, if_neg hc1]
        by_cases hc2 : (isImageLine r && (r.__parentId.getD "" == k)) = true
        · rw [if_pos hc2, if_pos hc2]
          simp [List.append_assoc]
        · rw [if_neg hc2, if_neg hc2]
          simp

theorem accFold_collections (k : String) (lines : List BulkLine) :
    ∀ acc : ProductAccumulator,
      (lines.foldl (fun a r => applyLineAcc r k a) acc).collections =
        acc.collections ++ collectionsOf lines k := by
  induction lines with
  | nil => intro acc; simp [collectionsOf]
  | cons r rest ih =>
      intro acc
      rw [List.foldl_cons, ih, applyLineAcc_collections]
      simp only [collectionsOf, List.filterMap_cons]
      by_cases hc : (isCollectionLine r && (r.__parentId.getD "" == k)) = true
      · rw [if_pos hc, if_pos hc]
        simp [List.append_assoc]
      · rw [if_neg hc, if_neg hc]
        simp

theorem accFold_scalars (k : String) (lines : List BulkLine) :
    ∀ acc : ProductAccumulator,
      scalarProj (lines.foldl (fun a r => applyLineAcc r k a) acc) =
        (match (topLinesOf lines k).getLast? with
         | some r => scalarProjLine r
         | none => scalarProj acc) := by
  induction lines with
  | nil => intro acc; simp [topLinesOf]
  | cons r rest ih =>
      intro acc
      rw [List.foldl_cons, ih]
      by_cases hc : (isTopLine r && (r.id.getD "" == k)) = true
      · have htop : topLinesOf (r :: rest) k = r :: topLinesOf rest k := by
          simp [topLinesOf, List.filter_cons, hc]
        rw [htop]
        cases hrest : topLinesOf rest k with
        | nil =>
            simp [applyLineAcc_scalars, hc]
        | cons x xs =>
            rw [List.getLast?_cons_cons]
            cases hlast : (x :: xs).getLast? with
            | none => exact absurd hlast (by simp)
            | some y => rfl
      · have htop : topLinesOf (r :: rest) k = topLinesOf rest k := by
          simp [topLinesOf, List.filter_cons, Bool.eq_false_iff.mpr hc, hc]
        rw [htop, applyLineAcc_scalars]
        rw [if_neg hc]

/- The stored accumulators carry their own key as `id`. -/

theorem mem_mapSet (m : AccMap) (k : String) (v : ProductAccumulator)
    (p : String × ProductAccumulator) (hp : p ∈ mapSet m k v) :
    p = (k, v) ∨ p ∈ m := by
  unfold mapSet at hp
  split_ifs at hp with h
  · obtain ⟨q, hq, hpq⟩ := List.mem_map.mp hp
    by_cases hqk : (q.1 == k) = true
    · left
      rw [if_pos hqk] at hpq
      exact hpq.symm
    · right
      rw [if_neg hqk] at hpq
      rw [← hpq]
      exact hq
  · rcases List.mem_append.mp hp with h2 | h2
    · right; exact h2
    · left; simpa using h2

theorem mapGet_id (m : AccMap) (hinv : ∀ p ∈ m, p.2.id = p.1) (k : String)
    (acc : ProductAccumulator) (h : mapGet m k = some acc) : acc.id = k := by
  unfold mapGet at h
  cases hf : m.find? (fun p => p.1 == k) with
  | none => rw [hf] at h; simp at h
  | some p =>
      rw [hf] at h
      simp only [Option.map_some'] at h
      have hpk := List.find?_some hf
      have hmem := List.mem_of_find?_eq_some hf
      have h' : p.2 = acc := by injection h
      rw [← h', hinv p hmem]
      exact eq_of_beq hpk

theorem base_id (m : AccMap) (hinv : ∀ p ∈ m, p.2.id = p.1) (k : String) :
    ((mapGet m k).getD (freshAcc k)).id = k := by
  cases h : mapGet m k with
  | none => rfl
  | some acc => exact mapGet_id m hinv k acc h

theorem mapSet_idInv (m : AccMap) (k : String) (v : ProductAccumulator)
    (hinv : ∀ p ∈ m, p.2.id = p.1) (hv : v.id = k) :
    ∀ p ∈ mapSet m k v, p.2.id = p.1 := by
  intro p hp
  rcases mem_mapSet m k v p hp with hpe | hpm
  · subst hpe; exact hv
  · exact hinv p hpm

theorem applyLine_idInv (m : AccMap) (r : BulkLine)
    (hinv : ∀ p ∈ m, p.2.id = p.1) : ∀ p ∈ applyLine m r, p.2.id = p.1 := by
  simp only [applyLine]
  split_ifs with h1 h2 h3 h4
  · exact mapSet_idInv _ _ _ hinv (by simp [applyTopLine, base_id m hinv])
  · exact mapSet_idInv _ _ _ hinv (by simp [base_id m hinv])
  · have hinv1 : ∀ p ∈ mapSet m (r.__parentId.getD "")
        { (mapGet m (r.__parentId.getD "")).getD (freshAcc (r.__parentId.getD "")) with
          imageUrls := ((mapGet m (r.__parentId.getD "")).getD
            (freshAcc (r.__parentId.getD ""))).imageUrls ++ [r.url.getD ""] },
        p.2.id = p.1 := mapSet_idInv _ _ _ hinv (by simp [base_id m hinv])
    exact mapSet_idInv _ _ _ hinv1 (by simp [base_id _ hinv1])
  · exact mapSet_idInv _ _ _ hinv (by simp [base_id m hinv])
  · exact mapSet_idInv _ _ _ hinv (by simp [base_id m hinv])
  · exact hinv

theorem foldl_applyLine_idInv (lines : List BulkLine) :
    ∀ m : AccMap, (∀ p ∈ m, p.2.id = p.1) →
      ∀ p ∈ lines.foldl applyLine m, p.2.id = p.1 := by
  induction lines with
  | nil => intro m h; exact h
  | cons r rest ih => intro m h; exact ih (applyLine m r) (applyLine_idInv m r h)

/-- Looking a product id up among the stored values coincides with the map
lookup, because every stored accumulator carries its key as `id`. -/
theorem find_values (m : AccMap) (hinv : ∀ p ∈ m, p.2.id = p.1) (k : String) :
    (m.map Prod.snd).find? (fun a => a.id == k) = mapGet m k := by
  induction m with
  | nil => rfl
  | cons p rest ih =>
      have hid : p.2.id = p.1 := hinv p (by simp)
      by_cases hk : (p.1 == k) = true
      · rw [List.map_cons, List.find?_cons_of_pos _ (by simp only [hid]; exact hk)]
        unfold mapGet
        simp only [List.find?_cons, hk]
        rfl
      · have hkf : (p.1 == k) = false := Bool.eq_false_iff.mpr hk
        rw [List.map_cons, List.find?_cons_of_neg _ (by simp only [hid]; exact hk)]
        unfold mapGet
        simp only [List.find?_cons, hkf]
        exact ih (fun q hq => hinv q (List.mem_cons_of_mem p hq))

/-- The central characterization of `parseBulkResults`: looking up a product
id in the output finds an accumulator exactly when some line concerns that id,
and that accumulator is the per-id replay of the whole stream. -/
theorem parseBulkResults_find (lines : List BulkLine) (k : String) :
    (parseBulkResults lines).find? (fun a => a.id == k) =
      (if lines.any (fun r => touches r k) then
        some (lines.foldl (fun a r => applyLineAcc r k a) (freshAcc k))
      else none) := by
  unfold parseBulkResults
  rw [find_values _ (foldl_applyLine_idInv lines [] (by intro p hp; simp at hp)) k]
  rw [mapGet_foldl_applyLine lines [] k]
  rfl

/-- Permutations of lists with at most one element are equal. -/
theorem perm_length_le_one_eq {α : Type} {l l2 : List α}
    (h : l2.Perm l) (hlen : l.length ≤ 1) : l2 = l := by
  cases l with
  | nil => exact h.eq_nil
  | cons a rest =>
      cases rest with
      | nil => exact List.perm_singleton.mp h
      | cons b rest2 => simp at hlen

theorem parseBulkResults_ids_nodup (lines : List BulkLine) :
    ((parseBulkResults lines).map ProductAccumulator.id).Nodup := by
  unfold parseBulkResults
  have hkeys := nodup_keys_fold lines [] (by simp)
  have hinv := foldl_applyLine_idInv lines [] (by intro p hp; simp at hp)
  rw [List.map_map]
  have heq : (lines.foldl applyLine []).map (ProductAccumulator.id ∘ Prod.snd)
      = (lines.foldl applyLine []).map Prod.fst :=
    List.map_congr_left (fun p hp => hinv p hp)
  rw [heq]
  exact hkeys

/-- Two variant child lines for parent "P" in the two possible orders. -/
def cexVariantA : BulkLine :=
  ⟨some "v1", some "P", some "S", none, none, none, none, none, none, none,
   none, some (some "1"), none⟩

def cexVariantB : BulkLine :=
  ⟨some "v2", some "P", some "T", none, none, none, none, none, none, none,
   none, some (some "2"), none⟩

/-- C6 counterexample: the two arrival orders of the same two variant child
lines produce accumulators whose variant lists differ in order, so the
resulting set of accumulators is not literally the same for every arrival
order of the lines. -/
theorem parseBulkResults_order_counterexample :
    ([cexVariantB, cexVariantA]).Perm [cexVariantA, cexVariantB] ∧
    ¬ (∀ a : ProductAccumulator,
        a ∈ parseBulkResults [cexVariantA, cexVariantB] ↔
        a ∈ parseBulkResults [cexVariantB, cexVariantA]) := by
  constructor
  · exact List.Perm.swap _ _ _
  · intro h
    have h1 : (⟨"P", none, none, none, none, none, none, none, none, [], [],
        [⟨"v1", "S", some "1"⟩, ⟨"v2", "T", some "2"⟩]⟩ : ProductAccumulator) ∈
        parseBulkResults [cexVariantA, cexVariantB] := by decide
    have h2 := (h _).mp h1
    have h3 : (⟨"P", none, none, none, none, none, none, none, none, [], [],
        [⟨"v1", "S", some "1"⟩, ⟨"v2", "T", some "2"⟩]⟩ : ProductAccumulator) ∉
        parseBulkResults [cexVariantB, cexVariantA] := by decide
    exact h3 h2

/-- C6 (amended): `parseBulkResults` keeps at most one accumulator per product
id; every child line (variant, image, collection) is attached to its
`__parentId`'s accumulator in stream order, even when the child precedes its
parent's top-level line; and, for a stream with at most one top-level line per
product id, every arrival order yields the same set of product ids with
identical scalar fields and the same variants, image URLs, and collections up
to order within each accumulator (the lists' internal order follows arrival
order, which the counterexample shows is observable). -/
theorem parseBulkResults_upsert_spec (lines : List BulkLine) :
    ((parseBulkResults lines).map ProductAccumulator.id).Nodup ∧
    (∀ k : String,
      (((parseBulkResults lines).find? (fun a => a.id == k)).isSome ↔
        lines.any (fun r => touches r k) = true) ∧
      ∀ acc, (parseBulkResults lines).find? (fun a => a.id == k) = some acc →
        acc.id = k ∧ acc.variants = variantsOf lines k ∧
        acc.imageUrls = imagesOf lines k ∧
        acc.collections = collectionsOf lines k ∧
        scalarProj acc = scalarsOf lines k) ∧
    (∀ lines2 : List BulkLine, lines2.Perm lines →
      (∀ k : String, (topLinesOf lines k).length ≤ 1) →
      ∀ k : String,
        (((parseBulkResults lines2).find? (fun a => a.id == k)).isSome ↔
          ((parseBulkResults lines).find? (fun a => a.id == k)).isSome) ∧
        (∀ acc acc2,
          (parseBulkResults lines).find? (fun a => a.id == k) = some acc →
          (parseBulkResults lines2).find? (fun a => a.id == k) = some acc2 →
          acc2.id = acc.id ∧ acc2.variants.Perm acc.variants ∧
          acc2.imageUrls.Perm acc.imageUrls ∧
          acc2.collections.Perm acc.collections ∧
          scalarProj acc2 = scalarProj acc)) := by
  have hmain : ∀ (ls : List BulkLine) (k : String) (acc : ProductAccumulator),
      (parseBulkResults ls).find? (fun a => a.id == k) = some acc →
      acc.id = k ∧ acc.variants = variantsOf ls k ∧
      acc.imageUrls = imagesOf ls k ∧
      acc.collections = collectionsOf ls k ∧
      scalarProj acc = scalarsOf ls k := by
    intro ls k acc hfind
    rw [parseBulkResults_find] at hfind
    by_cases hany : ls.any (fun r => touches r k) = true
    · rw [if_pos hany] at hfind
      have hacc : acc = ls.foldl (fun a r => applyLineAcc r k a) (freshAcc k) := by
        injection hfind.symm
      subst hacc
      refine ⟨?_, ?_, ?_, ?_, ?_⟩
      · rw [accFold_id]; rfl
      · rw [accFold_variants]; rfl
      · rw [accFold_images]; rfl
      · rw [accFold_collections]; rfl
      · rw [accFold_scalars]
        unfold scalarsOf
        cases (topLinesOf ls k).getLast? <;> rfl
    · rw [if_neg hany] at hfind
      exact absurd hfind (by simp)
  have hsome : ∀ (ls : List BulkLine) (k : String),
      ((parseBulkResults ls).find? (fun a => a.id == k)).isSome ↔
        ls.any (fun r => touches r k) = true := by
    intro ls k
    rw [parseBulkResults_find]
    by_cases hany : ls.any (fun r => touches r k) = true
    · simp [hany]
    · simp [hany]
  refine ⟨parseBulkResults_ids_nodup lines, fun k => ⟨hsome lines k, hmain lines k⟩,
    fun lines2 hperm htop k => ⟨?_, ?_⟩⟩
  · rw [hsome lines2 k, hsome lines k]
    constructor
    · intro h
      obtain ⟨r, hr, hrt⟩ := List.any_eq_true.mp h
      exact List.any_eq_true.mpr ⟨r, hperm.mem_iff.mp hr, hrt⟩
    · intro h
      obtain ⟨r, hr, hrt⟩ := List.any_eq_true.mp h
      exact List.any_eq_true.mpr ⟨r, hperm.mem_iff.mpr hr, hrt⟩
  · intro acc acc2 hfind hfind2
    obtain ⟨hid, hvar, himg, hcol, hsc⟩ := hmain lines k acc hfind
    obtain ⟨hid2, hvar2, himg2, hcol2, hsc2⟩ := hmain lines2 k acc2 hfind2
    have htopEq : topLinesOf lines2 k = topLinesOf lines k :=
      perm_length_le_one_eq (hperm.filter _) (htop k)
    refine ⟨by rw [hid, hid2], ?_, ?_, ?_, ?_⟩
    · rw [hvar, hvar2]
      exact hperm.filterMap _
    · rw [himg, himg2]
      exact hperm.filterMap _
    · rw [hcol, hcol2]
      exact hperm.filterMap _
    · rw [hsc, hsc2]
      unfold scalarsOf
      rw [htopEq]

/-- A top-level product line for "P", used by the C6 witness. -/
def cexTopLine : BulkLine :=
  ⟨some "P", none, some "Tee", some "tee", some "Acme", none, some "ACTIVE",
   none, none, some "https://cdn/f.jpg", some "https://cdn/i0.jpg", none, none⟩

/-- Witness for C6 on a two-line stream whose child precedes its parent. -/
theorem parseBulkResults_upsert_spec_witness :
    ([cexTopLine, cexVariantA]).Perm [cexVariantA, cexTopLine] ∧
    (∀ k : String, (topLinesOf [cexVariantA, cexTopLine] k).length ≤ 1) ∧
    (((parseBulkResults [cexTopLine, cexVariantA]).find?
        (fun a => a.id == "P")).isSome ↔
      ((parseBulkResults [cexVariantA, cexTopLine]).find?
        (fun a => a.id == "P")).isSome) := by
  have hA : isTopLine cexVariantA = false := by decide
  have hT : isTopLine cexTopLine = true := by decide
  have hperm : ([cexTopLine, cexVariantA] : List BulkLine).Perm
      [cexVariantA, cexTopLine] := List.Perm.swap _ _ _
  have htop : ∀ k : String, (topLinesOf [cexVariantA, cexTopLine] k).length ≤ 1 := by
    intro k
    simp only [topLinesOf, List.filter_cons, List.filter_nil, hA, Bool.false_and]
    cases h : (isTopLine cexTopLine && cexTopLine.id.getD "" == k) <;> simp [h]
  exact ⟨hperm, htop,
    ((parseBulkResults_upsert_spec [cexVariantA, cexTopLine]).2.2
      [cexTopLine, cexVariantA] hperm htop "P").1⟩

/- ### Scope predicate and GraphQL queries -/

/-- `escapeQuery`: escape backslashes, then double quotes. -/
def escapeQuery (value : String) : String :=
  (value.replace "\\" "\\\\").replace "\"" "\\\""

/-- The digits captured by `/gid:\/\/shopify\/Product\/(\d+)/` at the first
position where the literal prefix is followed by at least one digit. -/
def findProductGidDigits : List Char → Option (List Char)
  | [] => none
  | c :: rest =>
      if isPrefixList ("gid://shopify/Product/".data) (c :: rest) then
        let digits := ((c :: rest).drop "gid://shopify/Product/".length).takeWhile
          Char.isDigit
        if digits.isEmpty then findProductGidDigits rest else some digits
      else findProductGidDigits rest

def extractLegacyProductId (value : String) : Option String :=
  (findProductGidDigits value.data).map (fun ds => String.mk ds)

def buildOrClause (field : String) (values : Option (List String)) :
    Option String :=
  match values with
  | none => none
  | some [] => none
  | some vs =>
      some ("(" ++ String.intercalate " OR "
        (vs.map (fun v => field ++ ":\"" ++ escapeQuery v ++ "\"")) ++ ")")

/-- `buildProductQuery`: the selection predicate built from the scope type and
the includeDrafts flag. -/
def buildProductQuery (settings : ExportSettings) (includeDrafts : Bool) : String :=
  let clauses1 : List String :=
    [if includeDrafts then "(status:active OR status:draft)" else "status:active"]
  let clauses2 :=
    if settings.scopeType = some ScopeType.COLLECTIONS ∧
        ¬ (settings.collectionIds.getD []).isEmpty then
      clauses1 ++ ["(" ++ String.intercalate " OR "
        ((settings.collectionIds.getD []).map
          (fun id => "collection_id:" ++ escapeQuery id)) ++ ")"]
    else clauses1
  let clauses3 :=
    if settings.scopeType = some ScopeType.PRODUCTS ∧
        ¬ (settings.productIds.getD []).isEmpty then
      clauses2 ++ ["(" ++ String.intercalate " OR "
        ((settings.productIds.getD []).map
          (fun id => "id:" ++ ((extractLegacyProductId id).getD (escapeQuery id)))) ++ ")"]
    else clauses2
  let clauses4 :=
    match settings.scopeType, settings.filters with
    | some ScopeType.FILTERS, some filters =>
        let withVendor :=
          match buildOrClause "vendor" filters.vendor with
          | some c => clauses3 ++ [c]
          | none => clauses3
        let withType :=
          match buildOrClause "product_type" filters.productType with
          | some c => withVendor ++ [c]
          | none => withVendor
        match buildOrClause "tag" filters.tag with
        | some c => withType ++ [c]
        | none => withType
    | _, _ => clauses3
  String.intercalate " AND " clauses4

def shouldIncludeCollections (settings : ExportSettings) : Bool :=
  settings.grouping == some Grouping.COLLECTION ||
    settings.scopeType == some ScopeType.COLLECTIONS

def bulkQueryPre : String := "\x7b\n    products(query: \""

def bulkQueryPost (withCollections : Bool) : String :=
  "\", first: 250) \x7b\n" ++
    "      edges \x7b node \x7b id title handle vendor productType status " ++
    "createdAt updatedAt featuredImage \x7b url \x7d images(first: 1) " ++
    "\x7b nodes \x7b url \x7d \x7d " ++
    (if withCollections then
      "collections(first: 10) \x7b edges \x7b node \x7b id title \x7d \x7d \x7d "
     else "") ++
    "variants(first: 250) \x7b edges \x7b node \x7b id title price \x7d \x7d \x7d " ++
    "\x7d \x7d\n    \x7d\n  \x7d"

/-- The bulk GraphQL document (literal braces written as escapes): the scope
predicate interpolated into the fixed product query template. -/
def buildBulkQuery (settings : ExportSettings) : String :=
  bulkQueryPre ++ buildProductQuery settings (settings.includeDrafts.getD false) ++
    bulkQueryPost (shouldIncludeCollections settings)

def paginatedQueryPre : String :=
  "query Products($cursor: String) \x7b\n          products(first: 250, query: \""

def paginatedQueryPost (withCollections : Bool) : String :=
  "\", after: $cursor) \x7b\n" ++
    "            pageInfo \x7b hasNextPage \x7d edges \x7b cursor node \x7b " ++
    "id title handle vendor productType status createdAt updatedAt " ++
    "featuredImage \x7b url \x7d images(first: 1) \x7b nodes \x7b url \x7d \x7d " ++
    (if withCollections then
      "collections(first: 10) \x7b nodes \x7b id title \x7d \x7d "
     else "") ++
    "variants(first: 250) \x7b nodes \x7b id title price \x7d \x7d " ++
    "\x7d \x7d \x7d \x7d"

/-- The cursor-paginated GraphQL document used by the fallback: the same scope
predicate interpolated into the paginated template. -/
def buildPaginatedQuery (settings : ExportSettings) : String :=
  paginatedQueryPre ++
    buildProductQuery settings (settings.includeDrafts.getD false) ++
    paginatedQueryPost (shouldIncludeCollections settings)

/- ### Orchestration (`runCatalogJob`, `waitForBulkResult`, and the
`worker.on("failed")` handler of worker/src/index.ts) -/

inductive JobStatus | QUEUED | RUNNING | COMPLETED | FAILED | PARTIAL
deriving DecidableEq, Repr

/-- The data object of one `prisma.job.update` call. -/
structure JobUpdate where
  status : Option JobStatus
  progressPercent : Option Nat
  currentStep : Option String
  countsJson : Option Counts
  setStartedAt : Bool
  setFinishedAt : Bool
  clearErrorSummary : Bool
  errorSummary : Option String
deriving DecidableEq, Repr

/-- Observable side effects of a run, in order. -/
inductive Event
  | jobUpdate (u : JobUpdate)
  | jobFileCreate (fileType : String) (storageKey : String)
  | issueCreate (issue : JobIssue)
  | storageWrite (key : String)
deriving DecidableEq, Repr

structure BulkNode where
  status : String
  errorCode : Option String
  url : Option String
deriving DecidableEq, Repr

def bulkMaxWaitMs : Nat := 10 * 60 * 1000

/-- The polling loop of `waitForBulkResult`, over a finite sequence of
observations (elapsed milliseconds at the top of the iteration, and the node
the status query returned; `none` = missing node).  The source loop is
unbounded; the model reports exhaustion of the observation prefix as an
error, a case no stated theorem relies on. -/
def waitForBulkResult : List (Nat × Option BulkNode) → Except String String
  | [] => Except.error "poll observations exhausted"
  | (elapsed, node) :: rest =>
      if elapsed > bulkMaxWaitMs then Except.error "Bulk operation timed out"
      else
        match node with
        | none => Except.error "Bulk operation missing"
        | some n =>
            if n.status = "COMPLETED" ∧ truthyStr n.url then
              Except.ok (n.url.getD "")
            else if n.status = "FAILED" ∨ n.status = "CANCELED" then
              Except.error ("Bulk operation " ++ n.status)
            else waitForBulkResult rest

/-- One page of the cursor-paginated fallback: the accumulators assembled from
the page's edges, and `pageInfo.hasNextPage`. -/
structure PageResult where
  products : List ProductAccumulator
  hasNextPage : Bool
deriving DecidableEq, Repr

/-- The `while (hasNext)` loop of `fetchProductsPaginated`: a thrown query
error propagates, a missing payload breaks, otherwise the page's products are
appended until `hasNextPage` is false (exhaustion of the finite observation
prefix is treated as loop exit). -/
def fetchPagesLoop : List (Except String (Option PageResult)) →
    List ProductAccumulator → Except String (List ProductAccumulator)
  | [], acc => Except.ok acc
  | page :: rest, acc =>
      match page with
      | Except.error e => Except.error e
      | Except.ok none => Except.ok acc
      | Except.ok (some p) =>
          if p.hasNextPage then fetchPagesLoop rest (acc ++ p.products)
          else Except.ok (acc ++ p.products)

def fetchProductsPaginated (pages : List (Except String (Option PageResult))) :
    Except String (List ProductAccumulator) :=
  fetchPagesLoop pages []

/-- The outcome environment of one run: which effects each external call
produces, in the order the pipeline makes them. -/
structure RunEnv where
  settings : ExportSettings
  jobFound : Bool
  sessionFound : Bool
  submit : Except String String
  pollObs : List (Nat × Option BulkNode)
  resultLines : Except String (List BulkLine)
  pages : List (Except String (Option PageResult))
  coverOutcomes : Nat → List FetchOutcome

/-- The bulk-extraction path: submit, poll, download, parse — any failure
surfaces as the `Except.error` that the orchestrator catches. -/
def bulkPhase (env : RunEnv) : Except String (List ProductAccumulator) := do
  let _ ← env.submit
  let _ ← waitForBulkResult env.pollObs
  let lines ← env.resultLines
  pure (parseBulkResults lines)

/-- A counts-only job update, as written by `incrementCounts` and the
initialization inside `downloadCovers`. -/
def countsUpdate (counts : Counts) : Event :=
  Event.jobUpdate ⟨none, none, none, some counts, false, false, false, none⟩

/-- The worker loop of `downloadCovers`, serialized (each record is processed
by exactly one worker; the model processes them in queue order). -/
def coversLoop (jobId : String) (outcomes : Nat → List FetchOutcome) :
    List ProductRecord → Nat → Counts →
    List Event × List ProductRecord × Bool × Counts
  | [], _, counts => ([], [], false, counts)
  | record :: rest, i, counts =>
      let res := processCoverRecord jobId record (outcomes i)
      let counts2 := incrementCounts counts res.delta
      let evs := (res.issues.map Event.issueCreate) ++
        (if res.delta.imagesDownloaded = 1 then
          [Event.storageWrite (res.record.localCoverPath.getD "")]
        else []) ++ [countsUpdate counts2]
      let next := coversLoop jobId outcomes rest (i + 1) counts2
      (evs ++ next.1, res.record :: next.2.1, (res.failed || next.2.2.1), next.2.2.2)

/-- `downloadCovers`: initialize the counts, drain the queue, report the
records (with local paths filled in) and the `hasFailures` flag. -/
def downloadCoversModel (jobId : String) (records : List ProductRecord)
    (outcomes : Nat → List FetchOutcome) :
    List Event × List ProductRecord × Bool :=
  let initCounts : Counts := ⟨records.length, 0, 0, 0⟩
  let run := coversLoop jobId outcomes records 0 initCounts
  (countsUpdate initCounts :: run.1, run.2.1, run.2.2.1)

structure RunResult where
  events : List Event
  outcome : Except String Unit
  hasFailures : Option Bool

/-- The RUNNING/5% update that opens every run. -/
def startEvent : Event :=
  Event.jobUpdate ⟨some JobStatus.RUNNING, some 5, some "Collecting products",
    none, true, false, true, none⟩

/-- The currentStep-only update written when the bulk path fails. -/
def fallbackEvent : Event :=
  Event.jobUpdate ⟨none, none, some "Collecting products (fallback)", none,
    false, false, false, none⟩

/-- The successful tail of a run (from the 35% checkpoint on), shared by the
bulk path (`fb = []`) and the paginated fallback (`fb = [fallbackEvent]`). -/
def runOkResult (env : RunEnv) (jobId : String) (fb : List Event)
    (products : List ProductAccumulator) : RunResult :=
  let records := products.map (fun p => buildProductRecord p env.settings)
  let sortedRecords := sortRecords records env.settings
  let ev2 := Event.jobUpdate ⟨none, some 35, some "Downloading cover images",
    some ⟨sortedRecords.length, 0, 0, 0⟩, false, false, false, none⟩
  let covers := downloadCoversModel jobId sortedRecords env.coverOutcomes
  let manifestKey := "jobs/" ++ jobId ++ "/manifest.json"
  let pdfKey := "jobs/" ++ jobId ++ "/catalog.pdf"
  let zipKey := "jobs/" ++ jobId ++ "/images.zip"
  let tailEvents := [Event.storageWrite manifestKey,
    Event.jobFileCreate "MANIFEST" manifestKey,
    Event.jobUpdate ⟨none, some 70, some "Building PDF", none, false, false,
      false, none⟩,
    Event.storageWrite pdfKey,
    Event.jobFileCreate "PDF" pdfKey,
    Event.jobUpdate ⟨none, some 85, some "Packaging ZIP", none, false, false,
      false, none⟩,
    Event.storageWrite zipKey,
    Event.jobFileCreate "IMAGES_ZIP" zipKey,
    Event.jobUpdate ⟨some (if covers.2.2 then JobStatus.PARTIAL
        else JobStatus.COMPLETED),
      some 100, some "Completed", none, false, true, false, none⟩]
  ⟨[startEvent] ++ fb ++ [ev2] ++ covers.1 ++ tailEvents,
   Except.ok (), some covers.2.2⟩

/-- `runCatalogJob`, as a trace of its observable effects.  A thrown error is
an `Except.error` outcome carrying the events emitted before the throw;
persistence calls are modelled as always succeeding. -/
def runCatalogJob (env : RunEnv) (jobId : String) : RunResult :=
  if ¬ env.jobFound then ⟨[], Except.error "Job not found", none⟩
  else if ¬ env.sessionFound then ⟨[], Except.error "Missing offline session", none⟩
  else
    let afterBulk : List Event × Except String (List ProductAccumulator) :=
      match bulkPhase env with
      | Except.ok products => ([], Except.ok products)
      | Except.error _ => ([fallbackEvent], fetchProductsPaginated env.pages)
    match afterBulk.2 with
    | Except.error e => ⟨[startEvent] ++ afterBulk.1, Except.error e, none⟩
    | Except.ok products => runOkResult env jobId afterBulk.1 products

/-- The `worker.on("failed")` handler from worker/src/index.ts: marks the job
FAILED with the error summary (no-op when the queue job is missing). -/
def workerFailedHandler (jobPresent : Bool) (errMessage : String) : List Event :=
  if jobPresent then
    [Event.jobUpdate ⟨some JobStatus.FAILED, none, none, none, false, true,
      false, some errMessage⟩]
  else []

def statusWrites (events : List Event) : List JobStatus :=
  events.filterMap (fun e =>
    match e with
    | Event.jobUpdate u => u.status
    | _ => none)

def progressWrites (events : List Event) : List Nat :=
  events.filterMap (fun e =>
    match e with
    | Event.jobUpdate u => u.progressPercent
    | _ => none)

/-- Progress writes together with the step label written alongside. -/
def progressStepWrites (events : List Event) : List (Nat × Option String) :=
  events.filterMap (fun e =>
    match e with
    | Event.jobUpdate u => u.progressPercent.map (fun p => (p, u.currentStep))
    | _ => none)

theorem statusWrites_append (a b : List Event) :
    statusWrites (a ++ b) = statusWrites a ++ statusWrites b := by
  simp [statusWrites, List.filterMap_append]

theorem progressWrites_append (a b : List Event) :
    progressWrites (a ++ b) = progressWrites a ++ progressWrites b := by
  simp [progressWrites, List.filterMap_append]

theorem progressStepWrites_append (a b : List Event) :
    progressStepWrites (a ++ b) = progressStepWrites a ++ progressStepWrites b := by
  simp [progressStepWrites, List.filterMap_append]

theorem statusWrites_issueEvents (issues : List JobIssue) :
    statusWrites (issues.map Event.issueCreate) = [] := by
  induction issues with
  | nil => rfl
  | cons i rest ih => exact ih

theorem progressWrites_issueEvents (issues : List JobIssue) :
    progressWrites (issues.map Event.issueCreate) = [] := by
  induction issues with
  | nil => rfl
  | cons i rest ih => exact ih

theorem progressStepWrites_issueEvents (issues : List JobIssue) :
    progressStepWrites (issues.map Event.issueCreate) = [] := by
  induction issues with
  | nil => rfl
  | cons i rest ih => exact ih

/-- The image-acquisition stage writes neither status nor progress: its
events are issues, stored bytes, and counts-only job updates. -/
theorem coversLoop_writes (jobId : String) (outcomes : Nat → List FetchOutcome) :
    ∀ (records : List ProductRecord) (i : Nat) (counts : Counts),
      statusWrites (coversLoop jobId outcomes records i counts).1 = [] ∧
      progressWrites (coversLoop jobId outcomes records i counts).1 = [] ∧
      progressStepWrites (coversLoop jobId outcomes records i counts).1 = [] := by
  intro records
  induction records with
  | nil => intro i counts; exact ⟨rfl, rfl, rfl⟩
  | cons record rest ih =>
      intro i counts
      simp only [coversLoop]
      have hnext := ih (i + 1)
        (incrementCounts counts (processCoverRecord jobId record (outcomes i)).delta)
      have hsw : statusWrites
          (if (processCoverRecord jobId record (outcomes i)).delta.imagesDownloaded = 1 then
            [Event.storageWrite
              ((processCoverRecord jobId record (outcomes i)).record.localCoverPath.getD "")]
          else []) = [] := by
        split_ifs <;> rfl
      have hpw : progressWrites
          (if (processCoverRecord jobId record (outcomes i)).delta.imagesDownloaded = 1 then
            [Event.storageWrite
              ((processCoverRecord jobId record (outcomes i)).record.localCoverPath.getD "")]
          else []) = [] := by
        split_ifs <;> rfl
      have hpsw : progressStepWrites
          (if (processCoverRecord jobId record (outcomes i)).delta.imagesDownloaded = 1 then
            [Event.storageWrite
              ((processCoverRecord jobId record (outcomes i)).record.localCoverPath.getD "")]
          else []) = [] := by
        split_ifs <;> rfl
      refine ⟨?_, ?_, ?_⟩
      · rw [statusWrites_append, statusWrites_append, statusWrites_append,
          statusWrites_issueEvents, hsw, hnext.1]
        rfl
      · rw [progressWrites_append, progressWrites_append, progressWrites_append,
          progressWrites_issueEvents, hpw, hnext.2.1]
        rfl
      · rw [progressStepWrites_append, progressStepWrites_append,
          progressStepWrites_append, progressStepWrites_issueEvents, hpsw, hnext.2.2]
        rfl

theorem statusWrites_nil : statusWrites [] = [] := rfl

theorem statusWrites_update_none (a b c d e f g : _) (l : List Event) :
    statusWrites (Event.jobUpdate ⟨none, a, b, c, d, e, f, g⟩ :: l) =
      statusWrites l := rfl

theorem statusWrites_update_some (s : JobStatus) (a b c d e f g : _)
    (l : List Event) :
    statusWrites (Event.jobUpdate ⟨some s, a, b, c, d, e, f, g⟩ :: l) =
      s :: statusWrites l := rfl

theorem statusWrites_storage_cons (k : String) (l : List Event) :
    statusWrites (Event.storageWrite k :: l) = statusWrites l := rfl

theorem statusWrites_file_cons (t k : String) (l : List Event) :
    statusWrites (Event.jobFileCreate t k :: l) = statusWrites l := rfl

theorem statusWrites_counts_cons (c : Counts) (l : List Event) :
    statusWrites (countsUpdate c :: l) = statusWrites l := rfl

theorem progressWrites_nil : progressWrites [] = [] := rfl

theorem progressWrites_update_none (s : Option JobStatus) (b c d e f g : _)
    (l : List Event) :
    progressWrites (Event.jobUpdate ⟨s, none, b, c, d, e, f, g⟩ :: l) =
      progressWrites l := rfl

theorem progressWrites_update_some (s : Option JobStatus) (p : Nat) (b c d e f g : _)
    (l : List Event) :
    progressWrites (Event.jobUpdate ⟨s, some p, b, c, d, e, f, g⟩ :: l) =
      p :: progressWrites l := rfl

theorem progressWrites_storage_cons (k : String) (l : List Event) :
    progressWrites (Event.storageWrite k :: l) = progressWrites l := rfl

theorem progressWrites_file_cons (t k : String) (l : List Event) :
    progressWrites (Event.jobFileCreate t k :: l) = progressWrites l := rfl

theorem progressWrites_counts_cons (c : Counts) (l : List Event) :
    progressWrites (countsUpdate c :: l) = progressWrites l := rfl

theorem progressStepWrites_nil : progressStepWrites [] = [] := rfl

theorem progressStepWrites_update_none (s : Option JobStatus) (b c d e f g : _)
    (l : List Event) :
    progressStepWrites (Event.jobUpdate ⟨s, none, b, c, d, e, f, g⟩ :: l) =
      progressStepWrites l := rfl

theorem progressStepWrites_update_some (s : Option JobStatus) (p : Nat)
    (step : Option String) (c d e f g : _) (l : List Event) :
    progressStepWrites (Event.jobUpdate ⟨s, some p, step, c, d, e, f, g⟩ :: l) =
      (p, step) :: progressStepWrites l := rfl

theorem progressStepWrites_storage_cons (k : String) (l : List Event) :
    progressStepWrites (Event.storageWrite k :: l) = progressStepWrites l := rfl

theorem progressStepWrites_file_cons (t k : String) (l : List Event) :
    progressStepWrites (Event.jobFileCreate t k :: l) = progressStepWrites l := rfl

theorem progressStepWrites_counts_cons (c : Counts) (l : List Event) :
    progressStepWrites (countsUpdate c :: l) = progressStepWrites l := rfl

theorem runOkResult_shape (env : RunEnv) (jobId : String) (fb : List Event)
    (products : List ProductAccumulator)
    (hfb1 : statusWrites fb = []) (hfb2 : progressWrites fb = [])
    (hfb3 : progressStepWrites fb = []) :
    (∃ hf : Bool, (runOkResult env jobId fb products).hasFailures = some hf ∧
      statusWrites (runOkResult env jobId fb products).events =
        [JobStatus.RUNNING,
         if hf then JobStatus.PARTIAL else JobStatus.COMPLETED] ∧
      progressStepWrites (runOkResult env jobId fb products).events =
        [(5, some "Collecting products"), (35, some "Downloading cover images"),
         (70, some "Building PDF"), (85, some "Packaging ZIP"),
         (100, some "Completed")]) ∧
    progressWrites (runOkResult env jobId fb products).events =
      [5, 35, 70, 85, 100] ∧
    (runOkResult env jobId fb products).outcome = Except.ok () := by
  have hloop := coversLoop_writes jobId env.coverOutcomes
    (sortRecords (products.map (fun p => buildProductRecord p env.settings))
      env.settings) 0
    ⟨(sortRecords (products.map (fun p => buildProductRecord p env.settings))
        env.settings).length, 0, 0, 0⟩
  refine ⟨⟨(downloadCoversModel jobId
      (sortRecords (products.map (fun p => buildProductRecord p env.settings))
        env.settings) env.coverOutcomes).2.2, rfl, ?_, ?_⟩, ?_, rfl⟩
  · simp only [runOkResult, downloadCoversModel, startEvent, List.singleton_append,
      List.cons_append, List.nil_append, statusWrites_append,
      statusWrites_update_none, statusWrites_update_some, statusWrites_storage_cons,
      statusWrites_file_cons, statusWrites_counts_cons, statusWrites_nil, hfb1,
      hloop.1, List.append_nil]
  · simp only [runOkResult, downloadCoversModel, startEvent, List.singleton_append,
      List.cons_append, List.nil_append, progressStepWrites_append,
      progressStepWrites_update_none, progressStepWrites_update_some,
      progressStepWrites_storage_cons, progressStepWrites_file_cons,
      progressStepWrites_counts_cons, progressStepWrites_nil, hfb3,
      hloop.2.2, List.append_nil]
  · simp only [runOkResult, downloadCoversModel, startEvent, List.singleton_append,
      List.cons_append, List.nil_append, progressWrites_append,
      progressWrites_update_none, progressWrites_update_some,
      progressWrites_storage_cons, progressWrites_file_cons,
      progressWrites_counts_cons, progressWrites_nil, hfb2,
      hloop.2.1, List.append_nil]

/-- Trace shape of `runCatalogJob`: a successful run ends with the terminal
status decided by the image acquirer's failure flag and the five fixed
progress checkpoints with their labels; an aborted run has written only a
prefix of the trace. -/
theorem runCatalogJob_shape (env : RunEnv) (jobId : String) :
    ((runCatalogJob env jobId).outcome = Except.ok () →
      ∃ hf : Bool, (runCatalogJob env jobId).hasFailures = some hf ∧
        statusWrites (runCatalogJob env jobId).events =
          [JobStatus.RUNNING,
           if hf then JobStatus.PARTIAL else JobStatus.COMPLETED] ∧
        progressStepWrites (runCatalogJob env jobId).events =
          [(5, some "Collecting products"), (35, some "Downloading cover images"),
           (70, some "Building PDF"), (85, some "Packaging ZIP"),
           (100, some "Completed")]) ∧
    (statusWrites (runCatalogJob env jobId).events = [] ∨
     statusWrites (runCatalogJob env jobId).events = [JobStatus.RUNNING] ∨
     ∃ hf : Bool, statusWrites (runCatalogJob env jobId).events =
       [JobStatus.RUNNING,
        if hf then JobStatus.PARTIAL else JobStatus.COMPLETED]) ∧
    (progressWrites (runCatalogJob env jobId).events = [] ∨
     progressWrites (runCatalogJob env jobId).events = [5] ∨
     progressWrites (runCatalogJob env jobId).events = [5, 35, 70, 85, 100]) := by
  by_cases hjob : env.jobFound = true
  case neg =>
    have hrun : runCatalogJob env jobId = ⟨[], Except.error "Job not found", none⟩ := by
      simp [runCatalogJob, hjob]
    rw [hrun]
    exact ⟨fun h => absurd h (by simp), Or.inl rfl, Or.inl rfl⟩
  case pos =>
    by_cases hsession : env.sessionFound = true
    case neg =>
      have hrun : runCatalogJob env jobId =
          ⟨[], Except.error "Missing offline session", none⟩ := by
        simp [runCatalogJob, hjob, hsession]
      rw [hrun]
      exact ⟨fun h => absurd h (by simp), Or.inl rfl, Or.inl rfl⟩
    case pos =>
      cases hbulk : bulkPhase env with
      | ok products =>
          have hrun : runCatalogJob env jobId = runOkResult env jobId [] products := by
            simp [runCatalogJob, hjob, hsession, hbulk]
          rw [hrun]
          obtain ⟨hex, hprog, _⟩ := runOkResult_shape env jobId [] products rfl rfl rfl
          exact ⟨fun _ => hex, Or.inr (Or.inr ⟨hex.choose, hex.choose_spec.2.1⟩),
            Or.inr (Or.inr hprog)⟩
      | error e =>
          cases hpages : fetchProductsPaginated env.pages with
          | ok products =>
              have hrun : runCatalogJob env jobId =
                  runOkResult env jobId [fallbackEvent] products := by
                simp [runCatalogJob, hjob, hsession, hbulk, hpages]
              rw [hrun]
              obtain ⟨hex, hprog, _⟩ := runOkResult_shape env jobId [fallbackEvent]
                products rfl rfl rfl
              exact ⟨fun _ => hex, Or.inr (Or.inr ⟨hex.choose, hex.choose_spec.2.1⟩),
                Or.inr (Or.inr hprog)⟩
          | error e2 =>
              have hrun : runCatalogJob env jobId =
                  ⟨[startEvent] ++ [fallbackEvent], Except.error e2, none⟩ := by
                simp [runCatalogJob, hjob, hsession, hbulk, hpages]
              rw [hrun]
              exact ⟨fun h => absurd h (by simp), Or.inr (Or.inl rfl),
                Or.inr (Or.inl rfl)⟩

/-- C1: every run of `runCatalogJob` that finishes without an uncaught error
writes terminal status COMPLETED when the image acquirer reported
`hasFailures = false` and PARTIAL otherwise; `runCatalogJob` itself never
writes FAILED — FAILED is written only by the caller's `worker.on("failed")`
handler. -/
theorem runCatalogJob_terminal_status (env : RunEnv) (jobId : String)
    (hok : (runCatalogJob env jobId).outcome = Except.ok ()) :
    (∃ hf : Bool, (runCatalogJob env jobId).hasFailures = some hf ∧
      statusWrites (runCatalogJob env jobId).events =
        [JobStatus.RUNNING,
         if hf then JobStatus.PARTIAL else JobStatus.COMPLETED]) ∧
    (∀ (env2 : RunEnv) (jobId2 : String),
      JobStatus.FAILED ∉ statusWrites (runCatalogJob env2 jobId2).events) ∧
    (∀ (present : Bool) (msg : String),
      statusWrites (workerFailedHandler present msg) =
        if present then [JobStatus.FAILED] else []) := by
  refine ⟨?_, ?_, ?_⟩
  · obtain ⟨hf, h1, h2, _⟩ := (runCatalogJob_shape env jobId).1 hok
    exact ⟨hf, h1, h2⟩
  · intro env2 jobId2
    rcases (runCatalogJob_shape env2 jobId2).2.1 with h | h | ⟨hf, h⟩ <;> rw [h]
    · simp
    · decide
    · cases hf <;> decide
  · intro present msg
    cases present <;> rfl

/-- An environment in which every external call succeeds. -/
def okEnv : RunEnv :=
  ⟨ExportSettings.mk none none none none none none none none none none none
     none none none none none,
   true, true, Except.ok "gid-bulk",
   [(0, some ⟨"COMPLETED", none, some "https://bulk/result"⟩)],
   Except.ok [], [], fun _ => []⟩

/-- Witness for C1 on a concrete all-success environment. -/
theorem runCatalogJob_terminal_status_witness :
    (runCatalogJob okEnv "job1").outcome = Except.ok () ∧
    ((∃ hf : Bool, (runCatalogJob okEnv "job1").hasFailures = some hf ∧
       statusWrites (runCatalogJob okEnv "job1").events =
         [JobStatus.RUNNING,
          if hf then JobStatus.PARTIAL else JobStatus.COMPLETED]) ∧
     (∀ (env2 : RunEnv) (jobId2 : String),
       JobStatus.FAILED ∉ statusWrites (runCatalogJob env2 jobId2).events) ∧
     (∀ (present : Bool) (msg : String),
       statusWrites (workerFailedHandler present msg) =
         if present then [JobStatus.FAILED] else [])) :=
  ⟨rfl, runCatalogJob_terminal_status okEnv "job1" rfl⟩

/-- C9: a run that completes writes the progress sequence 5, 35, 70, 85, 100,
each with its step label, and in every run (aborted ones included) the
successive progress writes are non-decreasing. -/
theorem progress_monotone (env : RunEnv) (jobId : String) :
    ((runCatalogJob env jobId).outcome = Except.ok () →
      progressStepWrites (runCatalogJob env jobId).events =
        [(5, some "Collecting products"), (35, some "Downloading cover images"),
         (70, some "Building PDF"), (85, some "Packaging ZIP"),
         (100, some "Completed")]) ∧
    List.Chain' (· ≤ ·) (progressWrites (runCatalogJob env jobId).events) := by
  refine ⟨fun hok => ((runCatalogJob_shape env jobId).1 hok).choose_spec.2.2, ?_⟩
  rcases (runCatalogJob_shape env jobId).2.2 with h | h | h <;> rw [h] <;>
    norm_num [List.chain'_cons]

/-- Witness for C9 on the all-success environment. -/
theorem progress_monotone_witness :
    (runCatalogJob okEnv "job9").outcome = Except.ok () ∧
    progressStepWrites (runCatalogJob okEnv "job9").events =
      [(5, some "Collecting products"), (35, some "Downloading cover images"),
       (70, some "Building PDF"), (85, some "Packaging ZIP"),
       (100, some "Completed")] :=
  ⟨rfl, (progress_monotone okEnv "job9").1 rfl⟩

/-- C7: a bulk-extraction failure (submit error, FAILED or CANCELED poll
status, result download failure, or exceeding the 10-minute timeout) is
caught: the run continues on the cursor-paginated fallback, which re-issues
the same selection predicate, so a bulk failure never by itself ends the
job. -/
theorem bulk_failure_falls_back (env : RunEnv) (jobId : String) :
    (∀ (elapsed : Nat) (node : Option BulkNode)
      (rest : List (Nat × Option BulkNode)), elapsed > bulkMaxWaitMs →
      waitForBulkResult ((elapsed, node) :: rest) =
        Except.error "Bulk operation timed out") ∧
    (∀ (elapsed : Nat) (n : BulkNode) (rest : List (Nat × Option BulkNode)),
      elapsed ≤ bulkMaxWaitMs → (n.status = "FAILED" ∨ n.status = "CANCELED") →
      waitForBulkResult ((elapsed, some n) :: rest) =
        Except.error ("Bulk operation " ++ n.status)) ∧
    (∀ (e : String) (products : List ProductAccumulator),
      env.jobFound = true → env.sessionFound = true →
      bulkPhase env = Except.error e →
      fetchProductsPaginated env.pages = Except.ok products →
      (runCatalogJob env jobId).outcome = Except.ok () ∧
      fallbackEvent ∈ (runCatalogJob env jobId).events ∧
      (runCatalogJob env jobId).events =
        (runOkResult env jobId [fallbackEvent] products).events) ∧
    (∀ s : ExportSettings, ∃ pre mid : String,
      buildBulkQuery s =
        pre ++ buildProductQuery s (s.includeDrafts.getD false) ++ mid) ∧
    (∀ s : ExportSettings, ∃ pre mid : String,
      buildPaginatedQuery s =
        pre ++ buildProductQuery s (s.includeDrafts.getD false) ++ mid) := by
  refine ⟨?_, ?_, ?_, ?_, ?_⟩
  · intro elapsed node rest h
    simp only [waitForBulkResult]
    rw [if_pos h]
  · intro elapsed n rest hle hstatus
    have hnc : ¬ (n.status = "COMPLETED" ∧ truthyStr n.url = true) := by
      rcases hstatus with h | h <;> simp [h]
    simp only [waitForBulkResult]
    rw [if_neg (by omega)]
    rw [if_neg hnc, if_pos hstatus]
  · intro e products hjob hsession hbulk hpages
    have hrun : runCatalogJob env jobId =
        runOkResult env jobId [fallbackEvent] products := by
      simp [runCatalogJob, hjob, hsession, hbulk, hpages]
    rw [hrun]
    refine ⟨(runOkResult_shape env jobId [fallbackEvent] products rfl rfl rfl).2.2,
      ?_, rfl⟩
    simp [runOkResult]
  · intro s
    exact ⟨bulkQueryPre, bulkQueryPost (shouldIncludeCollections s), rfl⟩
  · intro s
    exact ⟨paginatedQueryPre, paginatedQueryPost (shouldIncludeCollections s), rfl⟩

/-- A product accumulator delivered by the paginated fallback in the C7
witness. -/
def fallbackAcc : ProductAccumulator :=
  ⟨"gid-f1", some "Tee", some "tee", none, none, none, none, none, none, [],
   [], []⟩

/-- An environment whose bulk submit throws and whose paginated fallback
returns one page. -/
def failingBulkEnv : RunEnv :=
  ⟨ExportSettings.mk none none none none none none none none none none none
     none none none none none,
   true, true, Except.error "boom", [], Except.ok [],
   [Except.ok (some ⟨[fallbackAcc], false⟩)], fun _ => []⟩

/-- Witness for C7 on the failing-bulk environment. -/
theorem bulk_failure_falls_back_witness :
    failingBulkEnv.jobFound = true ∧
    bulkPhase failingBulkEnv = Except.error "boom" ∧
    fetchProductsPaginated failingBulkEnv.pages = Except.ok [fallbackAcc] ∧
    ((runCatalogJob failingBulkEnv "job7").outcome = Except.ok () ∧
     fallbackEvent ∈ (runCatalogJob failingBulkEnv "job7").events ∧
     (runCatalogJob failingBulkEnv "job7").events =
       (runOkResult failingBulkEnv "job7" [fallbackEvent] [fallbackAcc]).events) :=
  ⟨rfl, rfl, rfl,
   (bulk_failure_falls_back failingBulkEnv "job7").2.2.1 "boom" [fallbackAcc]
     rfl rfl rfl rfl⟩

end CatalogForge
